import Mathlib

/-!
awesome: Lua object bridge (`common/luaobject.h`) and the imagebox widget (`widgets/imagebox.c`)

A shallow embedding of the two source files.

* The Lua VM is a record `lua_State` holding the value stack of the running C function, the
  integer-keyed part of the registry table (the part `luaL_ref` / `luaL_unref` manage), the
  userdata blocks allocated so far, and a log of widget invalidations.
* `LUA_OBJECT_FUNCS(type, prefix, lua_type)` is embedded once, with the metatable name
  `lua_type` as a parameter; `image_ref`, `image_unref` and `image_push` are its instance at
  `"image"`.
* C `int` is `Int` (signed overflow is undefined in C and is outside the model).  C `double` is
  modelled exactly for the operations the widget performs (see `double`).
* A C function that can raise a Lua error, fail an `assert` or run into undefined behaviour
  returns `Option`; `none` stands for every such abnormal exit.
-/

namespace Awesome

/-! ## Lua values and the VM state -/

/-- The Lua values that the embedded functions inspect.  A userdata value is the address of its
block.  Numbers, tables and functions never reach the code paths modelled here. -/
inductive LuaValue where
  | nil
  | boolean (b : Bool)
  | string (s : String)
  | userdata (addr : Nat)
  deriving DecidableEq, Repr

/-- Type for Lua references: `typedef int luaA_ref`. -/
abbrev luaA_ref := Int

/-- Vertical / horizontal alignment, `alignment_t` of draw.h. -/
inductive alignment_t where
  | AlignLeft
  | AlignRight
  | AlignCenter
  | AlignTop
  | AlignBottom
  | AlignFlex
  deriving DecidableEq, Repr

/-- Key tokens, `awesome_token_t`; only four are told apart by the imagebox, every other token is
`A_TK_other n`. -/
inductive awesome_token_t where
  | A_TK_IMAGE
  | A_TK_BG
  | A_TK_RESIZE
  | A_TK_VALIGN
  | A_TK_other (n : Nat)
  deriving DecidableEq, Repr

/-- A colour, `color_t`.  The widget only reads `initialized`; the channels are kept as one
number. -/
structure color_t where
  initialized : Bool
  rgba : Nat
  deriving DecidableEq, Repr

/-- The imagebox private data structure, `imagebox_data_t`.  `image` is a pointer to an
`image_t` userdata block (`none` is `NULL`). -/
structure imagebox_data_t where
  image : Option Nat
  bg : color_t
  valign : alignment_t
  resize : Bool
  deriving DecidableEq, Repr

/-- The functions a widget's callback slots can point to. -/
inductive callback_t where
  | NULL
  | imagebox_draw
  | luaA_imagebox_index
  | luaA_imagebox_newindex
  | imagebox_destructor
  | imagebox_geometry
  | imagebox_extents
  | foreign (n : Nat)
  deriving DecidableEq, Repr

/-- The part of `widget_t` that imagebox.c touches: the six callbacks and the private data
pointer (`none` is `NULL`; the pointed-to `imagebox_data_t` is stored by value). -/
structure widget_t where
  draw : callback_t
  index : callback_t
  newindex : callback_t
  destructor : callback_t
  geometry : callback_t
  extents : callback_t
  data : Option imagebox_data_t
  deriving DecidableEq, Repr

/-- What follows `LUA_OBJECT_HEADER` in a userdata block. -/
inductive body_t where
  | image (width height : Int)
  | widget (w : widget_t)
  | zeroed
  deriving DecidableEq, Repr

/-- A userdata block: its metatable (the name it was registered under by `luaA_settype`), the
`LUA_OBJECT_HEADER` field `refs` (a `luaA_ref_array_t`, `refs.len` is `refs.length` and
`refs.tab[i]` is the `i`-th element) and the rest of the struct. -/
structure lua_object_t where
  metatable : Option String
  refs : List luaA_ref
  body : body_t
  deriving DecidableEq, Repr

/-- The state of the Lua VM as the embedded functions see it.
* `stack`: the C function's stack frame, bottom first (index 1 is the head);
* `registry`: the live integer keys of the registry table with their values, each key at most
  once; a key is live from the `luaL_ref` that returned it to the `luaL_unref` that releases it;
* `heap`: the userdata blocks, the address of a block being its position;
* `invalidated`: the widgets passed to `widget_invalidate_bywidget`, latest first. -/
structure lua_State where
  stack : List LuaValue
  registry : List (luaA_ref × LuaValue)
  heap : List lua_object_t
  invalidated : List Nat
  deriving DecidableEq, Repr

/-! ## The Lua C API calls used by the sources -/

/-- Position in `stack` of an acceptable stack index (`index2adr`): positive indices count from
the bottom, negative ones from the top. -/
def index2adr (L : lua_State) (idx : Int) : Option Nat :=
  if 0 < idx then
    (if idx ≤ L.stack.length then some (idx.toNat - 1) else none)
  else if idx < 0 then
    (if -idx ≤ L.stack.length then some (L.stack.length - (-idx).toNat) else none)
  else none

/-- The value at a stack index, `none` for an index that holds no value (`LUA_TNONE`). -/
def lua_value (L : lua_State) (idx : Int) : Option LuaValue :=
  match index2adr L idx with
  | some i => L.stack[i]?
  | none => none

/-- Embedding of `lua_isnil`. -/
def lua_isnil (L : lua_State) (idx : Int) : Bool :=
  lua_value L idx = some LuaValue.nil

/-- Embedding of `lua_pushnil`. -/
def lua_pushnil (L : lua_State) : lua_State :=
  { L with stack := L.stack ++ [LuaValue.nil] }

/-- Embedding of `lua_pushboolean`. -/
def lua_pushboolean (L : lua_State) (b : Bool) : lua_State :=
  { L with stack := L.stack ++ [LuaValue.boolean b] }

/-- Embedding of `lua_pushstring`. -/
def lua_pushstring (L : lua_State) (s : String) : lua_State :=
  { L with stack := L.stack ++ [LuaValue.string s] }

/-- Embedding of `lua_pushvalue`: push a copy of the value at `idx`. -/
def lua_pushvalue (L : lua_State) (idx : Int) : Option lua_State :=
  match lua_value L idx with
  | some v => some { L with stack := L.stack ++ [v] }
  | none => none

/-- Embedding of `lua_remove`: remove the value at `idx`, shifting down the values above it. -/
def lua_remove (L : lua_State) (idx : Int) : Option lua_State :=
  match index2adr L idx with
  | some i => some { L with stack := L.stack.eraseIdx i }
  | none => none

/-- Embedding of `lua_rawgeti(L, LUA_REGISTRYINDEX, n)`: push the registry value at key `n`, nil
when the key is not live. -/
def lua_rawgeti_registry (L : lua_State) (n : luaA_ref) : lua_State :=
  match L.registry.lookup n with
  | some v => { L with stack := L.stack ++ [v] }
  | none => lua_pushnil L

/-- The registry without the key `key`. -/
def registry_erase (reg : List (luaA_ref × LuaValue)) (key : luaA_ref) :
    List (luaA_ref × LuaValue) :=
  reg.filter (fun kv => !decide (kv.1 = key))

/-- The reference `luaL_ref` returns for nil, `LUA_REFNIL`. -/
def LUA_REFNIL : luaA_ref := -1

/-- Embedding of `luaL_ref(L, LUA_REGISTRYINDEX)`: pop the value on top of the stack and store it
in the registry under a key that is not in use (nil is not stored and gets `LUA_REFNIL`). Which
key the Lua library picks is not fixed by its interface, so the key it returns is the argument
`key`. -/
def luaL_ref_registry (L : lua_State) (key : luaA_ref) : Option (luaA_ref × lua_State) :=
  match L.stack.getLast? with
  | some LuaValue.nil => some (LUA_REFNIL, { L with stack := L.stack.dropLast })
  | some v =>
    some (key, { L with stack := L.stack.dropLast,
                        registry := (key, v) :: registry_erase L.registry key })
  | none => none

/-- Embedding of `luaL_unref(L, LUA_REGISTRYINDEX, ref)`: release the key; a negative `ref` is
ignored. -/
def luaL_unref_registry (L : lua_State) (ref : luaA_ref) : lua_State :=
  if 0 ≤ ref then { L with registry := registry_erase L.registry ref } else L

/-- Embedding of `luaL_checkudata(L, ud, tname)`: the address of the userdata at `ud` when it is a
userdata whose metatable is the one registered as `tname`; a Lua error (`none`) otherwise. -/
def luaL_checkudata (L : lua_State) (ud : Int) (tname : String) : Option Nat :=
  match lua_value L ud with
  | some (LuaValue.userdata a) =>
    (match L.heap[a]? with
     | some o => if o.metatable = some tname then some a else none
     | none => none)
  | _ => none

/-- Embedding of `lua_newuserdata`: allocate a block and push it. The memory of the new block is
not initialised: its `refs` and `body` are whatever `junk` holds, any value at all. A new
userdata has no metatable. -/
def lua_newuserdata (L : lua_State) (junk : lua_object_t) : Nat × lua_State :=
  (L.heap.length,
   { L with stack := L.stack ++ [LuaValue.userdata L.heap.length],
            heap := L.heap ++ [{ junk with metatable := none }] })

/-- Overwrite the block at address `a`. -/
def heap_set (L : lua_State) (a : Nat) (o : lua_object_t) : lua_State :=
  { L with heap := L.heap.set a o }

/-- Embedding of `luaA_settype`: give the userdata on top of the stack the metatable registered as
`type` (`luaL_getmetatable` then `lua_setmetatable(L, -2)`); returns 1. -/
def luaA_settype (L : lua_State) (type : String) : Option (Int × lua_State) :=
  match lua_value L (-1) with
  | some (LuaValue.userdata a) =>
    (match L.heap[a]? with
     | some o => some (1, heap_set L a { o with metatable := some type })
     | none => none)
  | _ => none

/-! ## `LUA_OBJECT_FUNCS(type, prefix, lua_type)` -/

/-- Embedding of `luaA_ref_array_append`. -/
def luaA_ref_array_append (refs : List luaA_ref) (r : luaA_ref) : List luaA_ref :=
  refs ++ [r]

/-- Embedding of `luaA_ref_array_take(&refs, 0)`: drop the first element. -/
def luaA_ref_array_take0 (refs : List luaA_ref) : List luaA_ref :=
  refs.eraseIdx 0

/-- Embedding of `p_clear(p, 1)`: fill the struct with zero bytes. The `refs` array becomes the
empty array (`len = 0`) and the rest of the struct its all-zero value `zero`; the metatable is
not part of the struct's memory and is left alone. -/
def p_clear (o : lua_object_t) (zero : body_t) : lua_object_t :=
  { o with refs := [], body := zero }

/-- Embedding of `prefix##_new`: a new userdata of `type`, cleared by `p_clear`, with its
metatable set. `zero` is the all-zero value of the rest of the struct and `junk` the content of
the memory `lua_newuserdata` hands back. -/
def prefix_new (lua_type : String) (zero : body_t) (L : lua_State) (junk : lua_object_t) :
    Option (Nat × lua_State) :=
  let (p, L1) := lua_newuserdata L junk
  match L1.heap[p]? with
  | some o =>
    let L2 := heap_set L1 p (p_clear o zero)
    (match luaA_settype L2 lua_type with
     | some (_, L3) => some (p, L3)
     | none => none)
  | none => none

/-- Embedding of `prefix##_push`: push the Lua value of `item` (nil for `NULL`); returns 1. `none`
when the `assert(item->refs.len)` fails. -/
def prefix_push (L : lua_State) (item : Option Nat) : Option (Int × lua_State) :=
  match item with
  | some p =>
    (match L.heap[p]? with
     | some o =>
       (match o.refs with
        | r0 :: _ => some (1, lua_rawgeti_registry L r0)
        | [] => none)
     | none => none)
  | none => some (1, lua_pushnil L)

/-- Embedding of `prefix##_ref`: reference the object at stack index `ud` and remove it from the
stack; `NULL` for nil. `key` is what `luaL_ref` returns. -/
def prefix_ref (lua_type : String) (L : lua_State) (ud : Int) (key : luaA_ref) :
    Option (Option Nat × lua_State) :=
  if lua_isnil L ud then some (none, L)
  else
    match luaL_checkudata L ud lua_type with
    | none => none
    | some item =>
      match lua_pushvalue L ud with
      | none => none
      | some L1 =>
        match luaL_ref_registry L1 key with
        | none => none
        | some (r, L2) =>
          match L2.heap[item]? with
          | none => none
          | some o =>
            let L3 := heap_set L2 item { o with refs := luaA_ref_array_append o.refs r }
            match lua_remove L3 ud with
            | none => none
            | some L4 => some (some item, L4)

/-- Embedding of `prefix##_unref`: release the oldest reference of `item`; nothing for `NULL`.
`none` when the `assert(item->refs.len)` fails. -/
def prefix_unref (L : lua_State) (item : Option Nat) : Option lua_State :=
  match item with
  | some p =>
    (match L.heap[p]? with
     | some o =>
       (match o.refs with
        | r0 :: _ =>
          let L1 := luaL_unref_registry L r0
          some (heap_set L1 p { o with refs := luaA_ref_array_take0 o.refs })
        | [] => none)
     | none => none)
  | none => some L

/-- A VM with nothing on the stack, no live reference and no userdata. -/
def lua_empty : lua_State := { stack := [], registry := [], heap := [], invalidated := [] }

/-- The instance `LUA_OBJECT_FUNCS(image_t, image, "image")`: `image_ref`. -/
def image_ref (L : lua_State) (ud : Int) (key : luaA_ref) : Option (Option Nat × lua_State) :=
  prefix_ref "image" L ud key

/-- The instance `LUA_OBJECT_FUNCS(image_t, image, "image")`: `image_unref`. -/
def image_unref (L : lua_State) (item : Option Nat) : Option lua_State :=
  prefix_unref L item

/-- The instance `LUA_OBJECT_FUNCS(image_t, image, "image")`: `image_push`. -/
def image_push (L : lua_State) (item : Option Nat) : Option (Int × lua_State) :=
  prefix_push L item

/-! ## C `double`

IEEE-754 binary64 with round-to-nearest-even, every operation rounded to `double` (no excess
precision).  A finite value is `m * 2 ^ e`; the sign of zero is not tracked and the exponent is
not bounded, which is exact as long as the operands come from 32-bit integers, as they do in the
widget. -/

/-- A `double`. -/
inductive double where
  | finite (m : Int) (e : Int)
  | infinite (negative : Bool)
  | nan
  deriving DecidableEq, Repr

/-- Embedding of `p / q` rounded to the nearest integer, ties to even. -/
def round_even (p q : Nat) : Nat :=
  let m := p / q
  let r := p % q
  if 2 * r < q then m else if q < 2 * r then m + 1 else if m % 2 = 0 then m else m + 1

/-- The position of the highest set bit of `n`, computed by halving at most `fuel` times. -/
def log2_aux : Nat → Nat → Nat
  | 0, _ => 0
  | fuel + 1, n => if 2 ≤ n then log2_aux fuel (n / 2) + 1 else 0

/-- The position of the highest set bit of `n`: `2 ^ log2 n ≤ n < 2 ^ (log2 n + 1)` for
positive `n`. -/
def log2 (n : Nat) : Nat := log2_aux n n

/-- The exponent of `p / q`: the `k` with `2 ^ k ≤ p / q < 2 ^ (k + 1)`, for positive `p`, `q`. -/
def ilog2 (p q : Nat) : Int :=
  let k : Int := (log2 p : Int) - (log2 q : Int)
  if (0 ≤ k ∧ q * 2 ^ k.toNat ≤ p) ∨ (k < 0 ∧ q ≤ p * 2 ^ (-k).toNat) then k else k - 1

/-- The double nearest to `p / q` for positive `p`, `q`, as a 53-bit significand and its
exponent. -/
def round_binary64 (p q : Nat) : Nat × Int :=
  let s : Int := 52 - ilog2 p q
  (if 0 ≤ s then round_even (p * 2 ^ s.toNat) q else round_even p (q * 2 ^ (-s).toNat), -s)

/-- Conversion `(double) n` of an `int`, which is exact. -/
def double.ofInt (n : Int) : double := double.finite n 0

/-- Whether a product or quotient of numbers with significands `a`, `b` is negative. -/
def sign_differs (a b : Int) : Bool := decide (a < 0) != decide (b < 0)

/-- A significand with its sign. -/
def with_sign (negative : Bool) (m : Nat) : Int := if negative then -(m : Int) else (m : Int)

/-- Division of doubles, `a / b`. -/
def double.div : double → double → double
  | double.finite ma ea, double.finite mb eb =>
    if mb = 0 then
      (if ma = 0 then double.nan else double.infinite (decide (ma < 0)))
    else if ma = 0 then double.finite 0 0
    else
      let r := round_binary64 ma.natAbs mb.natAbs
      double.finite (with_sign (sign_differs ma mb) r.1) (r.2 + ea - eb)
  | double.finite _ _, double.infinite _ => double.finite 0 0
  | double.infinite na, double.finite mb _ => double.infinite (na != decide (mb < 0))
  | _, _ => double.nan

/-- Multiplication of doubles, `a * b`. -/
def double.mul : double → double → double
  | double.finite ma ea, double.finite mb eb =>
    if ma * mb = 0 then double.finite 0 0
    else
      let r := round_binary64 (ma * mb).natAbs 1
      double.finite (with_sign (sign_differs ma mb) r.1) (r.2 + ea + eb)
  | double.finite ma _, double.infinite nb =>
    if ma = 0 then double.nan else double.infinite (decide (ma < 0) != nb)
  | double.infinite na, double.finite mb _ =>
    if mb = 0 then double.nan else double.infinite (na != decide (mb < 0))
  | double.infinite na, double.infinite nb => double.infinite (na != nb)
  | _, _ => double.nan

/-- Largest `int`. -/
def INT_MAX : Int := 2147483647

/-- Smallest `int`. -/
def INT_MIN : Int := -2147483648

/-- Conversion of a double to `int`: the fractional part is discarded; undefined (`none`) when
the integral part is not an `int`, and for infinities and NaN. -/
def double.toInt : double → Option Int
  | double.finite m e =>
    let t : Int := if 0 ≤ e then m * 2 ^ e.toNat else Int.tdiv m (2 ^ (-e).toNat)
    if INT_MIN ≤ t ∧ t ≤ INT_MAX then some t else none
  | _ => none

/-- The real number a finite double stands for (0 for the others). -/
def double.toRat : double → ℚ
  | double.finite m e => (m : ℚ) * (2 : ℚ) ^ e
  | _ => 0

/-! ## The imagebox widget -/

/-- Modelled from the spec: `area_t` is declared in a header that is not among the sources; as
the specification reads them, its four fields are integers. -/
structure area_t where
  x : Int
  y : Int
  width : Int
  height : Int
  deriving DecidableEq, Repr

/-- What `draw_rectangle` and `draw_image` are asked to paint on a draw context. -/
inductive draw_op where
  | rectangle (geometry : area_t) (line_width : double) (filled : Bool) (color : color_t)
  | image (x y : Int) (ratio : double) (image : Nat)
  deriving DecidableEq, Repr

/-- A draw context: the operations painted so far, oldest first. -/
abbrev draw_context_t := List draw_op

/-- Embedding of `draw_rectangle`. -/
def draw_rectangle (ctx : draw_context_t) (geometry : area_t) (line_width : double)
    (filled : Bool) (color : color_t) : draw_context_t :=
  ctx ++ [draw_op.rectangle geometry line_width filled color]

/-- Embedding of `draw_image`. -/
def draw_image (ctx : draw_context_t) (x y : Int) (ratio : double) (image : Nat) :
    draw_context_t :=
  ctx ++ [draw_op.image x y ratio image]

/-- Embedding of `image_getwidth`: the width of the image at address `image`. -/
def image_getwidth (L : lua_State) (image : Nat) : Option Int :=
  match L.heap[image]? with
  | some o => (match o.body with
               | body_t.image w _ => some w
               | _ => none)
  | none => none

/-- Embedding of `image_getheight`: the height of the image at address `image`. -/
def image_getheight (L : lua_State) (image : Nat) : Option Int :=
  match L.heap[image]? with
  | some o => (match o.body with
               | body_t.image _ h => some h
               | _ => none)
  | none => none

/-- Embedding of `imagebox_geometry(widget, screen, height, width)`; `screen` is not used. `L`
gives the memory the image pointer points into. -/
def imagebox_geometry (L : lua_State) (widget : widget_t) (height width : Int) :
    Option area_t :=
  match widget.data with
  | none => none
  | some d =>
    match d.image with
    | some image =>
      (match image_getwidth L image, image_getheight L image with
       | some iwidth, some iheight =>
         if d.resize then
           let ratio := double.div (double.ofInt height) (double.ofInt iheight)
           (match double.toInt (double.mul ratio (double.ofInt iwidth)) with
            | some gwidth =>
              if gwidth > width then some { x := 0, y := 0, width := 0, height := 0 }
              else some { x := 0, y := 0, width := gwidth, height := height }
            | none => none)
         else if iwidth ≤ width then some { x := 0, y := 0, width := iwidth, height := height }
         else some { x := 0, y := 0, width := 0, height := 0 }
       | _, _ => none)
    | none => some { x := 0, y := 0, width := 0, height := 0 }

/-- Embedding of `imagebox_extents`. -/
def imagebox_extents (L : lua_State) (widget : widget_t) : Option area_t :=
  match widget.data with
  | none => none
  | some d =>
    match d.image with
    | some image =>
      (match image_getwidth L image, image_getheight L image with
       | some iwidth, some iheight => some { x := 0, y := 0, width := iwidth, height := iheight }
       | _, _ => none)
    | none => some { x := 0, y := 0, width := 0, height := 0 }

/-- Embedding of `imagebox_draw(widget, ctx, geometry, p)`: the draw context after the call; the
wibox `p` is not used. -/
def imagebox_draw (L : lua_State) (widget : widget_t) (ctx : draw_context_t)
    (geometry : area_t) : Option draw_context_t :=
  match widget.data with
  | none => none
  | some d =>
    match d.image with
    | some image =>
      if geometry.width ≠ 0 ∧ geometry.height ≠ 0 then
        let ctx1 :=
          if d.bg.initialized then draw_rectangle ctx geometry (double.ofInt 1) true d.bg
          else ctx
        match image_getheight L image with
        | none => none
        | some iheight =>
          let ratio :=
            if d.resize then double.div (double.ofInt geometry.height) (double.ofInt iheight)
            else double.ofInt 1
          let y :=
            match d.valign with
            | alignment_t.AlignBottom => geometry.y + (geometry.height - iheight)
            | alignment_t.AlignCenter => geometry.y + Int.tdiv (geometry.height - iheight) 2
            | _ => geometry.y
          some (draw_image ctx1 geometry.x y ratio image)
      else some ctx
    | none => some ctx

/-- Functions of the repository that the widget calls and that are defined outside the two
source files; the widget's behaviour is stated for every choice of them.
* `luaA_pushcolor`: the string pushed for a colour;
* `draw_align_tostr`, `draw_align_fromstr`: alignment names;
* `color_init`: what `color_init_reply(color_init_unchecked(&c, buf, len))` leaves in `c`. -/
structure externs where
  luaA_pushcolor : color_t → String
  draw_align_tostr : alignment_t → String
  draw_align_fromstr : String → alignment_t
  color_init : color_t → String → color_t

/-- Embedding of `luaL_checklstring`: the string at `idx`, a Lua error otherwise. -/
def luaL_checklstring (L : lua_State) (idx : Int) : Option String :=
  match lua_value L idx with
  | some (LuaValue.string s) => some s
  | _ => none

/-- Embedding of `luaA_checkboolean`: the boolean at `idx`, a Lua error otherwise. -/
def luaA_checkboolean (L : lua_State) (idx : Int) : Option Bool :=
  match lua_value L idx with
  | some (LuaValue.boolean b) => some b
  | _ => none

/-- The private data `widget->data` of the widget at address `widget`. -/
def widget_data (L : lua_State) (widget : Nat) : Option imagebox_data_t :=
  match L.heap[widget]? with
  | some o => (match o.body with
               | body_t.widget w => w.data
               | _ => none)
  | none => none

/-- A store through `d`, the private data pointer of the widget at address `widget`. -/
def widget_data_store (L : lua_State) (widget : Nat) (f : imagebox_data_t → imagebox_data_t) :
    Option lua_State :=
  match L.heap[widget]? with
  | some o => (match o.body with
               | body_t.widget w =>
                 (match w.data with
                  | some d =>
                    some (heap_set L widget { o with body := body_t.widget { w with data := some (f d) } })
                  | none => none)
               | _ => none)
  | none => none

/-- Embedding of `widget_invalidate_bywidget`. -/
def widget_invalidate_bywidget (L : lua_State) (widget : Nat) : lua_State :=
  { L with invalidated := widget :: L.invalidated }

/-- Embedding of `p_clear(&d->bg, 1)`: the all-zero colour. -/
def color_zero : color_t := { initialized := false, rgba := 0 }

/-- Embedding of `luaA_imagebox_index`: returns the number of elements pushed on stack. -/
def luaA_imagebox_index (X : externs) (L : lua_State) (token : awesome_token_t) :
    Option (Int × lua_State) :=
  match luaL_checkudata L 1 "widget" with
  | none => none
  | some widget =>
    match widget_data L widget with
    | none => none
    | some d =>
      match token with
      | awesome_token_t.A_TK_IMAGE =>
        (match image_push L d.image with
         | some (_, L1) => some (1, L1)
         | none => none)
      | awesome_token_t.A_TK_BG => some (1, lua_pushstring L (X.luaA_pushcolor d.bg))
      | awesome_token_t.A_TK_RESIZE => some (1, lua_pushboolean L d.resize)
      | awesome_token_t.A_TK_VALIGN => some (1, lua_pushstring L (X.draw_align_tostr d.valign))
      | awesome_token_t.A_TK_other _ => some (0, L)

/-- Embedding of `luaA_imagebox_newindex`, the `__newindex` method: returns the number of elements
pushed on stack. `key` is what `luaL_ref` returns should `image_ref` call it. -/
def luaA_imagebox_newindex (X : externs) (L : lua_State) (token : awesome_token_t)
    (key : luaA_ref) : Option (Int × lua_State) :=
  match luaL_checkudata L 1 "widget" with
  | none => none
  | some widget =>
    match widget_data L widget with
    | none => none
    | some d =>
      let stored : Option lua_State :=
        match token with
        | awesome_token_t.A_TK_IMAGE =>
          (match image_unref L d.image with
           | none => none
           | some L1 =>
             match image_ref L1 3 key with
             | none => none
             | some (item, L2) => widget_data_store L2 widget (fun d => { d with image := item }))
        | awesome_token_t.A_TK_BG =>
          if lua_isnil L 3 then widget_data_store L widget (fun d => { d with bg := color_zero })
          else
            (match luaL_checklstring L 3 with
             | none => none
             | some buf =>
               widget_data_store L widget (fun d => { d with bg := X.color_init d.bg buf }))
        | awesome_token_t.A_TK_RESIZE =>
          (match luaA_checkboolean L 3 with
           | none => none
           | some b => widget_data_store L widget (fun d => { d with resize := b }))
        | awesome_token_t.A_TK_VALIGN =>
          (match luaL_checklstring L 3 with
           | none => none
           | some buf =>
             widget_data_store L widget (fun d => { d with valign := X.draw_align_fromstr buf }))
        | awesome_token_t.A_TK_other _ => none
      match token with
      | awesome_token_t.A_TK_other _ => some (0, L)
      | _ =>
        match stored with
        | none => none
        | some L1 => some (0, widget_invalidate_bywidget L1 widget)

/-- Modelled from the spec: `p_new(imagebox_data_t, 1)`, whose definition is not among the
sources, returns zero-filled memory: no image (`NULL`), a colour that is not initialised, and
zero in `valign` and `resize`. -/
def p_new_imagebox_data : imagebox_data_t :=
  { image := none, bg := color_zero, valign := alignment_t.AlignLeft, resize := false }

/-- Embedding of `widget_imagebox(w)`: initialise the widget at address `w` as an imagebox and
return `w`. -/
def widget_imagebox (L : lua_State) (w : Nat) : Option (Nat × lua_State) :=
  match L.heap[w]? with
  | some o =>
    (match o.body with
     | body_t.widget wd =>
       let d0 : imagebox_data_t := p_new_imagebox_data
       let d1 : imagebox_data_t := { d0 with resize := true }
       let d2 : imagebox_data_t := { d1 with valign := alignment_t.AlignTop }
       let wd1 : widget_t :=
         { wd with draw := callback_t.imagebox_draw,
                   index := callback_t.luaA_imagebox_index,
                   newindex := callback_t.luaA_imagebox_newindex,
                   destructor := callback_t.imagebox_destructor,
                   geometry := callback_t.imagebox_geometry,
                   extents := callback_t.imagebox_extents,
                   data := some d2 }
       some (w, heap_set L w { o with body := body_t.widget wd1 })
     | _ => none)
  | none => none

/-! ## Well-formed states -/

/-- The keys stored in `o.refs` are pairwise distinct live registry keys whose value is the
userdata at address `a`. -/
@[reducible] def refs_ok (L : lua_State) (a : Nat) (o : lua_object_t) : Prop :=
  o.refs.Nodup ∧ ∀ k ∈ o.refs, L.registry.lookup k = some (LuaValue.userdata a)

/-- Well-formed VM states: every registry key is live once and is not negative, and the `refs`
array of every userdata block satisfies `refs_ok`. -/
def WF (L : lua_State) : Prop :=
  (L.registry.map Prod.fst).Nodup ∧ (∀ kv ∈ L.registry, 0 ≤ kv.1) ∧
    ∀ p ∈ L.heap.enum, refs_ok L p.1 p.2

instance (L : lua_State) (a : Nat) (o : lua_object_t) : Decidable (refs_ok L a o) := by
  unfold refs_ok; infer_instance

instance (L : lua_State) : Decidable (WF L) := by
  unfold WF; infer_instance


/-- The state `prefix_ref` leaves when it references the userdata `a` found at stack position
`i`. -/
def ref_result (L : lua_State) (i a : Nat) (o : lua_object_t) (key : luaA_ref) : lua_State :=
  { stack := L.stack.eraseIdx i,
    registry := (key, LuaValue.userdata a) :: registry_erase L.registry key,
    heap := L.heap.set a { o with refs := o.refs ++ [key] },
    invalidated := L.invalidated }


/-- The state `prefix_unref` leaves when it releases `r0`, the first reference of the userdata
at `a`. -/
def unref_result (L : lua_State) (a : Nat) (o : lua_object_t) (r0 : luaA_ref) : lua_State :=
  heap_set (luaL_unref_registry L r0) a { o with refs := luaA_ref_array_take0 o.refs }

/-- The states reachable from the empty VM by `prefix_new`, `prefix_push`, `prefix_ref`
(with `luaL_ref` returning a key that is not negative and not in use), `prefix_unref` and by
pushing nil, copying or removing a stack value. -/
inductive Reachable : lua_State → Prop
  | empty : Reachable lua_empty
  | new (lua_type : String) (zero : body_t) (L : lua_State) (junk : lua_object_t) (p : Nat)
      (L1 : lua_State) :
      Reachable L → prefix_new lua_type zero L junk = some (p, L1) → Reachable L1
  | push (L : lua_State) (item : Option Nat) (r : Int) (L1 : lua_State) :
      Reachable L → prefix_push L item = some (r, L1) → Reachable L1
  | ref (lua_type : String) (L : lua_State) (ud : Int) (key : luaA_ref) (item : Option Nat)
      (L1 : lua_State) :
      Reachable L → 0 ≤ key → L.registry.lookup key = none →
      prefix_ref lua_type L ud key = some (item, L1) → Reachable L1
  | unref (L : lua_State) (item : Option Nat) (L1 : lua_State) :
      Reachable L → prefix_unref L item = some L1 → Reachable L1
  | pushnil (L : lua_State) : Reachable L → Reachable (lua_pushnil L)
  | pushvalue (L : lua_State) (idx : Int) (L1 : lua_State) :
      Reachable L → lua_pushvalue L idx = some L1 → Reachable L1
  | remove (L : lua_State) (idx : Int) (L1 : lua_State) :
      Reachable L → lua_remove L idx = some L1 → Reachable L1

/-- The header of a block: its metatable and its references. -/
def header (o : lua_object_t) : Option String × List luaA_ref := (o.metatable, o.refs)

/-- Sample externals for the concrete instances below: alignments are named by `top`,
`bottom`, `center`, and a colour string sets the colour `initialized`. -/
def sample_externs : externs :=
  { luaA_pushcolor := fun c => if c.initialized then "#000000" else "",
    draw_align_tostr := fun a =>
      match a with
      | alignment_t.AlignTop => "top"
      | alignment_t.AlignBottom => "bottom"
      | alignment_t.AlignCenter => "center"
      | _ => "left",
    draw_align_fromstr := fun s =>
      if s = "top" then alignment_t.AlignTop
      else if s = "bottom" then alignment_t.AlignBottom
      else if s = "center" then alignment_t.AlignCenter
      else alignment_t.AlignLeft,
    color_init := fun _ _ => { initialized := true, rgba := 255 } }

/-- A sample imagebox widget with private data `d`. -/
def sample_widget (d : imagebox_data_t) : widget_t :=
  { draw := callback_t.imagebox_draw,
    index := callback_t.luaA_imagebox_index,
    newindex := callback_t.luaA_imagebox_newindex,
    destructor := callback_t.imagebox_destructor,
    geometry := callback_t.imagebox_geometry,
    extents := callback_t.imagebox_extents,
    data := some d }

/-- A sample VM state inside a `__newindex` call on a new imagebox: the imagebox (address 0)
at stack index 1, the key at index 2 and the assigned value `v` at index 3; a `16 x 20` image
lives at address 1, referenced once under key 1. -/
def sample_state (key : String) (v : LuaValue) : lua_State :=
  { stack := [LuaValue.userdata 0, LuaValue.string key, v],
    registry := [(1, LuaValue.userdata 1)],
    heap := [{ metatable := some "widget", refs := [],
               body := body_t.widget (sample_widget
                 { image := none, bg := color_zero, valign := alignment_t.AlignTop,
                   resize := true }) },
             { metatable := some "image", refs := [1], body := body_t.image 16 20 }],
    invalidated := [] }

/-- The state `sample_state "image" (userdata 1)` after `__newindex` stored the image at address 1
under the registry key 2. -/
def sample_state_image : lua_State :=
  { stack := [LuaValue.userdata 0, LuaValue.string "image"],
    registry := [(2, LuaValue.userdata 1), (1, LuaValue.userdata 1)],
    heap := [{ metatable := some "widget", refs := [],
               body := body_t.widget (sample_widget
                 { image := some 1, bg := color_zero, valign := alignment_t.AlignTop,
                   resize := true }) },
             { metatable := some "image", refs := [1, 2], body := body_t.image 16 20 }],
    invalidated := [0] }

/-- The width `imagebox_geometry` computes when resize is on, `geometry.width = ratio * iwidth`
with `ratio = (double) height / iheight`: the double product converted to `int`. -/
def resize_width (height iheight iwidth : Int) : Option Int :=
  double.toInt
    (double.mul (double.div (double.ofInt height) (double.ofInt iheight)) (double.ofInt iwidth))

/-- The result C4 words for resize on: the image scaled to the available height, its width
being `floor (height * iwidth / iheight)`, or the empty area when that is wider than the
available width. -/
def geometry_resize_spec (iwidth iheight height width : Int) : area_t :=
  if height * iwidth / iheight ≤ width then
    { x := 0, y := 0, width := height * iwidth / iheight, height := height }
  else { x := 0, y := 0, width := 0, height := 0 }
/-! ## The registry and well-formed states -/

theorem lookup_registry_erase (l : List (luaA_ref × LuaValue)) (key k : luaA_ref) :
    (registry_erase l key).lookup k = if k = key then none else l.lookup k := by
  unfold registry_erase
  induction l with
  | nil => simp
  | cons hd tl ih =>
    obtain ⟨a, v⟩ := hd
    by_cases h1 : a = key
    · subst h1
      by_cases h2 : k = a
      · subst h2; simpa [List.filter_cons] using ih
      · have : (k == a) = false := by simpa using h2
        simpa [List.filter_cons, List.lookup_cons, this, h2] using ih
    · by_cases h2 : k = a
      · subst h2
        simp [List.filter_cons, h1, List.lookup_cons]
      · have : (k == a) = false := by simpa using h2
        simpa [List.filter_cons, h1, List.lookup_cons, this] using ih

theorem lookup_none_iff (l : List (luaA_ref × LuaValue)) (k : luaA_ref) :
    l.lookup k = none ↔ k ∉ l.map Prod.fst := by
  induction l with
  | nil => simp
  | cons hd tl ih =>
    obtain ⟨a, v⟩ := hd
    by_cases h : k = a
    · subst h; simp
    · have : (k == a) = false := by simpa using h
      simp [List.lookup_cons, this, ih, h]

theorem registry_erase_fresh (l : List (luaA_ref × LuaValue)) (key : luaA_ref)
    (h : l.lookup key = none) : registry_erase l key = l := by
  rw [lookup_none_iff] at h
  unfold registry_erase
  rw [List.filter_eq_self]
  intro kv hkv
  have : kv.1 ≠ key := fun e => h (e ▸ List.mem_map_of_mem Prod.fst hkv)
  simpa using this

theorem nodup_keys_registry_erase (l : List (luaA_ref × LuaValue)) (key : luaA_ref)
    (hnd : (l.map Prod.fst).Nodup) : ((registry_erase l key).map Prod.fst).Nodup :=
  List.Nodup.sublist (List.Sublist.map _ (List.filter_sublist l)) hnd

theorem mem_registry_erase (l : List (luaA_ref × LuaValue)) (key : luaA_ref)
    (kv : luaA_ref × LuaValue) (h : kv ∈ registry_erase l key) : kv ∈ l ∧ kv.1 ≠ key := by
  unfold registry_erase at h
  simpa using h


theorem WF_iff (L : lua_State) :
    WF L ↔ (L.registry.map Prod.fst).Nodup ∧ (∀ kv ∈ L.registry, 0 ≤ kv.1) ∧
      ∀ a o, L.heap[a]? = some o → refs_ok L a o := by
  unfold WF
  constructor
  · rintro ⟨h1, h2, h3⟩
    refine ⟨h1, h2, fun a o h => ?_⟩
    exact h3 (a, o) (List.mk_mem_enum_iff_getElem?.2 h)
  · rintro ⟨h1, h2, h3⟩
    refine ⟨h1, h2, fun p hp => ?_⟩
    exact h3 p.1 p.2 (List.mem_enum_iff_getElem?.1 hp)

theorem lua_value_some (L : lua_State) (ud : Int) (v : LuaValue) (h : lua_value L ud = some v) :
    ∃ i, index2adr L ud = some i ∧ L.stack[i]? = some v := by
  unfold lua_value at h
  cases hi : index2adr L ud with
  | none => simp [hi] at h
  | some i => exact ⟨i, rfl, by simpa [hi] using h⟩

theorem prefix_ref_userdata (lua_type : String) (L : lua_State) (ud : Int) (key : luaA_ref)
    (a : Nat) (o : lua_object_t) (hv : lua_value L ud = some (LuaValue.userdata a))
    (ho : L.heap[a]? = some o) (hm : o.metatable = some lua_type) :
    ∃ i, index2adr L ud = some i ∧
      prefix_ref lua_type L ud key = some (some a, ref_result L i a o key) := by
  obtain ⟨i, hi, hs⟩ := lua_value_some L ud _ hv
  refine ⟨i, hi, ?_⟩
  have hidx : ∀ (r : List (luaA_ref × LuaValue)) (h : List lua_object_t) (n : List Nat),
      index2adr ⟨L.stack, r, h, n⟩ ud = some i := by
    intro r h n; simpa [index2adr] using hi
  simp [prefix_ref, lua_isnil, hv, luaL_checkudata, ho, hm, lua_pushvalue, luaL_ref_registry,
    heap_set, luaA_ref_array_append, lua_remove, ref_result, hidx]


theorem WF_congr (L L' : lua_State) (hr : L'.registry = L.registry) (hh : L'.heap = L.heap)
    (h : WF L) : WF L' := by
  unfold WF refs_ok at *
  rw [hr, hh]
  exact h

theorem getElem?_set_some (h : List lua_object_t) (a b : Nat) (o o' x : lua_object_t)
    (ho : h[a]? = some o) (hx : (h.set a o')[b]? = some x) :
    (b = a ∧ x = o') ∨ (b ≠ a ∧ h[b]? = some x) := by
  by_cases hab : a = b
  · subst hab
    left
    have hlt : a < h.length := by
      rcases Nat.lt_or_ge a h.length with hl | hl
      · exact hl
      · rw [List.getElem?_eq_none hl] at ho; cases ho
    rw [List.getElem?_set_self hlt] at hx
    exact ⟨rfl, (Option.some.inj hx).symm⟩
  · right
    rw [List.getElem?_set_ne hab] at hx
    exact ⟨fun e => hab e.symm, hx⟩

theorem WF_ref (L : lua_State) (i a : Nat) (o : lua_object_t) (key : luaA_ref) (h : WF L)
    (ho : L.heap[a]? = some o) (hk : 0 ≤ key) (hfresh : L.registry.lookup key = none) :
    WF (ref_result L i a o key) := by
  rw [WF_iff] at h ⊢
  obtain ⟨h1, h2, h3⟩ := h
  have he : registry_erase L.registry key = L.registry := registry_erase_fresh _ _ hfresh
  have hnotin : ∀ (b : Nat) (x : lua_object_t), L.heap[b]? = some x → key ∉ x.refs := by
    intro b x hx hmem
    have := (h3 b x hx).2 key hmem
    rw [hfresh] at this; cases this
  refine ⟨?_, ?_, ?_⟩
  · simp only [ref_result, he, List.map_cons, List.nodup_cons]
    exact ⟨(lookup_none_iff _ _).1 hfresh, h1⟩
  · intro kv hkv
    simp only [ref_result, he, List.mem_cons] at hkv
    rcases hkv with e | e
    · rw [e]; exact hk
    · exact h2 kv e
  · intro b x hx
    simp only [ref_result] at hx
    have hlook : ∀ k, k ≠ key → ((key, LuaValue.userdata a) :: registry_erase L.registry key).lookup k
        = L.registry.lookup k := by
      intro k hne
      have : (k == key) = false := by simpa using hne
      rw [he, List.lookup_cons, this]
    rcases getElem?_set_some _ _ _ _ _ _ ho hx with ⟨hb, hxo⟩ | ⟨hb, hxo⟩
    · subst hb; subst hxo
      refine ⟨?_, ?_⟩
      · have hd : o.refs.Disjoint [key] := by
          intro k hk1 hk2
          rw [List.mem_singleton] at hk2
          exact hnotin b o ho (hk2 ▸ hk1)
        exact List.nodup_append.2 ⟨(h3 b o ho).1, List.nodup_singleton key, hd⟩
      · intro k hkm
        simp only [List.mem_append, List.mem_singleton] at hkm
        simp only [ref_result]
        rcases hkm with hkm | hkm
        · have hne : k ≠ key := fun e => hnotin b o ho (e ▸ hkm)
          rw [hlook k hne]
          exact (h3 b o ho).2 k hkm
        · subst hkm; simp
    · refine ⟨(h3 b x hxo).1, ?_⟩
      intro k hkm
      have hne : k ≠ key := fun e => hnotin b x hxo (e ▸ hkm)
      simp only [ref_result]
      rw [hlook k hne]
      exact (h3 b x hxo).2 k hkm

theorem prefix_unref_some (L : lua_State) (a : Nat) (o : lua_object_t) (r0 : luaA_ref)
    (rest : List luaA_ref) (ho : L.heap[a]? = some o) (hr : o.refs = r0 :: rest) :
    prefix_unref L (some a) = some (unref_result L a o r0) := by
  simp [prefix_unref, ho, hr, unref_result]

theorem WF_unref (L : lua_State) (a : Nat) (o : lua_object_t) (r0 : luaA_ref)
    (rest : List luaA_ref) (h : WF L) (ho : L.heap[a]? = some o) (hr : o.refs = r0 :: rest) :
    WF (unref_result L a o r0) ∧ (unref_result L a o r0).registry = registry_erase L.registry r0 ∧
      (unref_result L a o r0).heap = L.heap.set a { o with refs := rest } := by
  rw [WF_iff] at h
  obtain ⟨h1, h2, h3⟩ := h
  have hlive : L.registry.lookup r0 = some (LuaValue.userdata a) :=
    (h3 a o ho).2 r0 (by rw [hr]; exact List.mem_cons_self _ _)
  have hr0 : 0 ≤ r0 := by
    rcases List.lookup_eq_some_iff.1 hlive with ⟨l1, l2, hl, _⟩
    exact h2 (r0, LuaValue.userdata a) (by rw [hl]; simp)
  have hreg : (unref_result L a o r0).registry = registry_erase L.registry r0 := by
    simp [unref_result, luaL_unref_registry, hr0, heap_set]
  have hheap : (unref_result L a o r0).heap = L.heap.set a { o with refs := rest } := by
    simp [unref_result, luaL_unref_registry, hr0, heap_set, luaA_ref_array_take0, hr]
  refine ⟨?_, hreg, hheap⟩
  rw [WF_iff, hreg, hheap]
  refine ⟨nodup_keys_registry_erase _ _ h1, ?_, ?_⟩
  · intro kv hkv
    exact h2 kv (mem_registry_erase _ _ _ hkv).1
  · intro b x hx
    have hnd : (r0 :: rest).Nodup := hr ▸ (h3 a o ho).1
    rcases getElem?_set_some _ _ _ _ _ _ ho hx with ⟨hb, hxo⟩ | ⟨hb, hxo⟩
    · subst hb; subst hxo
      refine ⟨(List.nodup_cons.1 hnd).2, ?_⟩
      intro k hkm
      simp only at hkm
      have hne : k ≠ r0 := fun e => (List.nodup_cons.1 hnd).1 (e ▸ hkm)
      simp only [hreg, lookup_registry_erase, hne, if_false]
      exact (h3 b o ho).2 k (by rw [hr]; exact List.mem_cons_of_mem _ hkm)
    · refine ⟨(h3 b x hxo).1, ?_⟩
      intro k hkm
      have hk := (h3 b x hxo).2 k hkm
      have hne : k ≠ r0 := by
        intro e
        rw [e, hlive] at hk
        exact hb (LuaValue.userdata.inj (Option.some.inj hk)).symm
      simp only [hreg, lookup_registry_erase, hne, if_false]
      exact hk

theorem prefix_new_eq (lua_type : String) (zero : body_t) (L : lua_State)
    (junk : lua_object_t) :
    prefix_new lua_type zero L junk = some (L.heap.length,
      { stack := L.stack ++ [LuaValue.userdata L.heap.length],
        registry := L.registry,
        heap := L.heap ++ [{ metatable := some lua_type, refs := [], body := zero }],
        invalidated := L.invalidated }) := by
  simp [prefix_new, lua_newuserdata, p_clear, heap_set, luaA_settype, lua_value, index2adr]

theorem WF_new (lua_type : String) (zero : body_t) (L : lua_State) (junk : lua_object_t)
    (h : WF L) (p : Nat) (L1 : lua_State)
    (hn : prefix_new lua_type zero L junk = some (p, L1)) : WF L1 := by
  rw [prefix_new_eq] at hn
  obtain ⟨rfl, rfl⟩ := Prod.mk.inj (Option.some.inj hn)
  rw [WF_iff] at h ⊢
  obtain ⟨h1, h2, h3⟩ := h
  refine ⟨h1, h2, ?_⟩
  intro b x hx
  simp only at hx
  rcases Nat.lt_or_ge b L.heap.length with hb | hb
  · rw [List.getElem?_append_left hb] at hx
    exact h3 b x hx
  · rw [List.getElem?_append_right hb] at hx
    have hx' : x = { metatable := some lua_type, refs := [], body := zero } := by
      cases hbl : b - L.heap.length with
      | zero => rw [hbl] at hx; simpa using hx.symm
      | succ n => rw [hbl] at hx; simp at hx
    subst hx'
    exact ⟨List.nodup_nil, fun k hk => by cases hk⟩

theorem getElem?_set_same (h : List lua_object_t) (a : Nat) (o o' : lua_object_t)
    (ho : h[a]? = some o) : (h.set a o')[a]? = some o' := by
  have hlt : a < h.length := by
    rcases Nat.lt_or_ge a h.length with hl | hl
    · exact hl
    · rw [List.getElem?_eq_none hl] at ho; cases ho
  exact List.getElem?_set_self hlt

theorem luaL_checkudata_some (L : lua_State) (ud : Int) (tname : String) (a : Nat)
    (h : luaL_checkudata L ud tname = some a) :
    lua_value L ud = some (LuaValue.userdata a) ∧
      ∃ o, L.heap[a]? = some o ∧ o.metatable = some tname := by
  unfold luaL_checkudata at h
  split at h
  · rename_i b hv
    split at h
    · rename_i o ho
      split at h
      · rename_i hm
        obtain rfl := Option.some.inj h
        exact ⟨hv, o, ho, hm⟩
      · cases h
    · cases h
  · cases h

theorem prefix_ref_inv (lua_type : String) (L : lua_State) (ud : Int) (key : luaA_ref)
    (item : Option Nat) (L1 : lua_State)
    (h : prefix_ref lua_type L ud key = some (item, L1)) :
    (lua_value L ud = some LuaValue.nil ∧ item = none ∧ L1 = L) ∨
    (∃ a o i, lua_value L ud = some (LuaValue.userdata a) ∧ L.heap[a]? = some o ∧
      o.metatable = some lua_type ∧ index2adr L ud = some i ∧ item = some a ∧
      L1 = ref_result L i a o key) := by
  by_cases hnil : lua_isnil L ud = true
  · left
    have hv : lua_value L ud = some LuaValue.nil := by simpa [lua_isnil] using hnil
    simp only [prefix_ref, hnil, if_true] at h
    obtain ⟨rfl, rfl⟩ := Prod.mk.inj (Option.some.inj h)
    exact ⟨hv, rfl, rfl⟩
  · right
    cases hc : luaL_checkudata L ud lua_type with
    | none => simp [prefix_ref, hnil, hc] at h
    | some a =>
      obtain ⟨hv, o, ho, hm⟩ := luaL_checkudata_some L ud lua_type a hc
      obtain ⟨i, hi, href⟩ := prefix_ref_userdata lua_type L ud key a o hv ho hm
      rw [href] at h
      obtain ⟨rfl, rfl⟩ := Prod.mk.inj (Option.some.inj h)
      exact ⟨a, o, i, hv, ho, hm, hi, rfl, rfl⟩

theorem prefix_unref_inv (L : lua_State) (item : Option Nat) (L1 : lua_State)
    (h : prefix_unref L item = some L1) :
    (item = none ∧ L1 = L) ∨
    (∃ a o r0 rest, item = some a ∧ L.heap[a]? = some o ∧ o.refs = r0 :: rest ∧
      L1 = unref_result L a o r0) := by
  cases item with
  | none =>
    left
    simp only [prefix_unref] at h
    exact ⟨rfl, (Option.some.inj h).symm⟩
  | some a =>
    right
    cases ho : L.heap[a]? with
    | none => simp [prefix_unref, ho] at h
    | some o =>
      cases hr : o.refs with
      | nil => simp [prefix_unref, ho, hr] at h
      | cons r0 rest =>
        rw [prefix_unref_some L a o r0 rest ho hr] at h
        exact ⟨a, o, r0, rest, rfl, ho, hr, (Option.some.inj h).symm⟩

theorem WF_prefix_ref (lua_type : String) (L : lua_State) (ud : Int) (key : luaA_ref)
    (item : Option Nat) (L1 : lua_State) (hwf : WF L) (hk : 0 ≤ key)
    (hfresh : L.registry.lookup key = none)
    (h : prefix_ref lua_type L ud key = some (item, L1)) : WF L1 := by
  rcases prefix_ref_inv lua_type L ud key item L1 h with ⟨_, _, rfl⟩ | ⟨a, o, i, _, ho, _, _, _, rfl⟩
  · exact hwf
  · exact WF_ref L i a o key hwf ho hk hfresh

theorem WF_prefix_unref (L : lua_State) (item : Option Nat) (L1 : lua_State) (hwf : WF L)
    (h : prefix_unref L item = some L1) : WF L1 := by
  rcases prefix_unref_inv L item L1 h with ⟨_, rfl⟩ | ⟨a, o, r0, rest, _, ho, hr, rfl⟩
  · exact hwf
  · exact (WF_unref L a o r0 rest hwf ho hr).1

theorem prefix_push_stack (L : lua_State) (item : Option Nat) (r : Int) (L1 : lua_State)
    (h : prefix_push L item = some (r, L1)) :
    r = 1 ∧ L1.registry = L.registry ∧ L1.heap = L.heap ∧ L1.invalidated = L.invalidated ∧
      ∃ v, L1.stack = L.stack ++ [v] := by
  cases item with
  | none =>
    simp only [prefix_push] at h
    obtain ⟨rfl, rfl⟩ := Prod.mk.inj (Option.some.inj h)
    exact ⟨rfl, rfl, rfl, rfl, LuaValue.nil, rfl⟩
  | some a =>
    cases ho : L.heap[a]? with
    | none => simp [prefix_push, ho] at h
    | some o =>
      cases hr : o.refs with
      | nil => simp [prefix_push, ho, hr] at h
      | cons r0 rest =>
        simp only [prefix_push, ho, hr] at h
        obtain ⟨rfl, rfl⟩ := Prod.mk.inj (Option.some.inj h)
        unfold lua_rawgeti_registry
        cases L.registry.lookup r0 with
        | none => exact ⟨rfl, rfl, rfl, rfl, LuaValue.nil, rfl⟩
        | some v => exact ⟨rfl, rfl, rfl, rfl, v, rfl⟩

theorem prefix_push_WF (L : lua_State) (a : Nat) (o : lua_object_t) (hwf : WF L)
    (ho : L.heap[a]? = some o) (hlen : 1 ≤ o.refs.length) :
    prefix_push L (some a) = some (1, { L with stack := L.stack ++ [LuaValue.userdata a] }) := by
  cases hr : o.refs with
  | nil => rw [hr] at hlen; simp at hlen
  | cons r0 rest =>
    have hlive : L.registry.lookup r0 = some (LuaValue.userdata a) :=
      (((WF_iff L).1 hwf).2.2 a o ho).2 r0 (by rw [hr]; exact List.mem_cons_self _ _)
    simp [prefix_push, ho, hr, lua_rawgeti_registry, hlive]

theorem WF_empty : WF lua_empty := by decide

theorem Reachable_WF (L : lua_State) (h : Reachable L) : WF L := by
  induction h with
  | empty => exact WF_empty
  | new lua_type zero L junk p L1 _ hn ih => exact WF_new lua_type zero L junk ih p L1 hn
  | push L item r L1 _ hp ih =>
    obtain ⟨_, hr, hh, _, _⟩ := prefix_push_stack L item r L1 hp
    exact WF_congr L L1 hr hh ih
  | ref lua_type L ud key item L1 _ hk hfresh hr ih =>
    exact WF_prefix_ref lua_type L ud key item L1 ih hk hfresh hr
  | unref L item L1 _ hu ih => exact WF_prefix_unref L item L1 ih hu
  | pushnil L _ ih => exact WF_congr L (lua_pushnil L) rfl rfl ih
  | pushvalue L idx L1 _ hp ih =>
    unfold lua_pushvalue at hp
    split at hp
    · obtain rfl := Option.some.inj hp
      exact WF_congr L _ rfl rfl ih
    · cases hp
  | remove L idx L1 _ hp ih =>
    unfold lua_remove at hp
    split at hp
    · obtain rfl := Option.some.inj hp
      exact WF_congr L _ rfl rfl ih
    · cases hp

/-- C2 (native object / scripting handle bridging).  In every reachable state, for every
userdata block `o` at address `a`: the keys in `o.refs` are pairwise distinct, and each of them
is a live registry key whose registry value is the userdata handle of `a` itself.  Hence, when
`refs.len >= 1`, `prefix_push` pushes exactly that handle and returns 1; and for a `NULL` item
`prefix_push` pushes nil and returns 1. -/
theorem C2_bridging_invariant (L : lua_State) (h : Reachable L) :
    (∀ (a : Nat) (o : lua_object_t), L.heap[a]? = some o →
        o.refs.Nodup ∧
        (∀ k ∈ o.refs, L.registry.lookup k = some (LuaValue.userdata a)) ∧
        (1 ≤ o.refs.length →
          prefix_push L (some a) =
            some (1, { L with stack := L.stack ++ [LuaValue.userdata a] }))) ∧
    prefix_push L none = some (1, { L with stack := L.stack ++ [LuaValue.nil] }) := by
  have hwf := Reachable_WF L h
  refine ⟨fun a o ho => ?_, rfl⟩
  have h3 := ((WF_iff L).1 hwf).2.2 a o ho
  exact ⟨h3.1, h3.2, prefix_push_WF L a o hwf ho⟩

/-- C2 at a concrete reachable state: an image made by `prefix_new` and referenced once under
key 1, then pushed back on the stack. -/
theorem C2_bridging_invariant_witness :
    prefix_push ⟨[], [(1, LuaValue.userdata 0)], [⟨some "image", [1], body_t.image 0 0⟩], []⟩
        (some 0) =
      some (1, ⟨[LuaValue.userdata 0], [(1, LuaValue.userdata 0)],
        [⟨some "image", [1], body_t.image 0 0⟩], []⟩) :=
  ((C2_bridging_invariant
      ⟨[], [(1, LuaValue.userdata 0)], [⟨some "image", [1], body_t.image 0 0⟩], []⟩
      (Reachable.ref "image"
        ⟨[LuaValue.userdata 0], [], [⟨some "image", [], body_t.image 0 0⟩], []⟩ 1 1 (some 0) _
        (Reachable.new "image" (body_t.image 0 0) lua_empty ⟨none, [5, 5], body_t.zeroed⟩ 0 _
          Reachable.empty (by decide))
        (by decide) (by decide) (by decide))).1 0 ⟨some "image", [1], body_t.image 0 0⟩
      (by decide)).2.2 (by decide)

theorem imagebox_geometry_xy (L : lua_State) (widget : widget_t) (height width : Int)
    (g : area_t) (h : imagebox_geometry L widget height width = some g) :
    g.x = 0 ∧ g.y = 0 ∧ (0 ≤ width → g.width ≤ width) := by
  unfold imagebox_geometry at h
  simp only at h
  repeat' split at h
  all_goals cases h
  all_goals refine ⟨rfl, rfl, fun hw => ?_⟩
  all_goals simp only
  all_goals omega

/-- C5 (geometry request without resizing).  For an imagebox with private data `d`:
* whenever `imagebox_geometry` returns, `x = y = 0`, and for an available width `>= 0` the
  returned width does not exceed the available width;
* (a) with no image set it returns width = height = 0, whatever the resize flag;
* (b) with resize off and an image of width `iwidth`, it returns width = `iwidth` and height =
  the available height when `iwidth <= width`, and width = height = 0 when `iwidth > width`;
  so the result is the same for two images of the same width, whatever their heights. -/
theorem C5_geometry_without_resize (L : lua_State) (widget : widget_t) (d : imagebox_data_t)
    (height width : Int) (hd : widget.data = some d) :
    (∀ g, imagebox_geometry L widget height width = some g →
        g.x = 0 ∧ g.y = 0 ∧ (0 ≤ width → g.width ≤ width)) ∧
    (d.image = none →
        imagebox_geometry L widget height width =
          some { x := 0, y := 0, width := 0, height := 0 }) ∧
    (∀ (image : Nat) (iwidth iheight : Int), d.image = some image → d.resize = false →
        image_getwidth L image = some iwidth → image_getheight L image = some iheight →
        (iwidth ≤ width → imagebox_geometry L widget height width =
          some { x := 0, y := 0, width := iwidth, height := height }) ∧
        (width < iwidth → imagebox_geometry L widget height width =
          some { x := 0, y := 0, width := 0, height := 0 }) ∧
        (∀ (L' : lua_State) (iheight' : Int), image_getwidth L' image = some iwidth →
          image_getheight L' image = some iheight' →
          imagebox_geometry L' widget height width =
            imagebox_geometry L widget height width)) := by
  refine ⟨fun g hg => imagebox_geometry_xy L widget height width g hg, ?_, ?_⟩
  · intro hi
    simp [imagebox_geometry, hd, hi]
  · intro image iwidth iheight hi hr hw hh
    refine ⟨?_, ?_, ?_⟩
    · intro hle
      simp [imagebox_geometry, hd, hi, hr, hw, hh, hle]
    · intro hlt
      simp [imagebox_geometry, hd, hi, hr, hw, hh, not_le.2 hlt]
    · intro L' iheight' hw' hh'
      simp [imagebox_geometry, hd, hi, hr, hw, hh, hw', hh']

/-- C5 at a concrete input: a 16x20 image, resize off, 18 pixels high and 30 wide available. -/
theorem C5_geometry_without_resize_witness :
    imagebox_geometry ⟨[], [], [⟨some "image", [], body_t.image 16 20⟩], []⟩
        ⟨callback_t.NULL, callback_t.NULL, callback_t.NULL, callback_t.NULL, callback_t.NULL,
          callback_t.NULL, some ⟨some 0, color_zero, alignment_t.AlignTop, false⟩⟩ 18 30 =
      some { x := 0, y := 0, width := 16, height := 18 } :=
  ((C5_geometry_without_resize ⟨[], [], [⟨some "image", [], body_t.image 16 20⟩], []⟩
      ⟨callback_t.NULL, callback_t.NULL, callback_t.NULL, callback_t.NULL, callback_t.NULL,
        callback_t.NULL, some ⟨some 0, color_zero, alignment_t.AlignTop, false⟩⟩
      ⟨some 0, color_zero, alignment_t.AlignTop, false⟩ 18 30 rfl).2.2 0 16 20 rfl rfl
        (by decide) (by decide)).1 (by decide)

theorem luaL_checkudata_head (L : lua_State) (tname : String) (w : Nat) (o : lua_object_t)
    (rest : List LuaValue) (hs : L.stack = LuaValue.userdata w :: rest)
    (ho : L.heap[w]? = some o) (hm : o.metatable = some tname) :
    luaL_checkudata L 1 tname = some w := by
  simp [luaL_checkudata, lua_value, index2adr, hs, ho, hm]

theorem luaA_imagebox_index_resize (X : externs) (L : lua_State) (w : Nat)
    (d : imagebox_data_t) (hc : luaL_checkudata L 1 "widget" = some w)
    (hd : widget_data L w = some d) :
    luaA_imagebox_index X L awesome_token_t.A_TK_RESIZE =
      some (1, lua_pushboolean L d.resize) := by
  simp [luaA_imagebox_index, hc, hd]

theorem luaA_imagebox_index_image (X : externs) (L : lua_State) (w : Nat)
    (d : imagebox_data_t) (hc : luaL_checkudata L 1 "widget" = some w)
    (hd : widget_data L w = some d) :
    luaA_imagebox_index X L awesome_token_t.A_TK_IMAGE =
      match image_push L d.image with
      | some (_, L1) => some (1, L1)
      | none => none := by
  simp [luaA_imagebox_index, hc, hd]

/-- C8 (creation of an imagebox).  For a widget block at address `w`, `widget_imagebox`
returns that same `w`; afterwards the six callbacks are the imagebox ones and the private data
has no image, a colour that is not initialised, `resize = true` and `valign = AlignTop`; nothing
else of the VM changes.  Hence on the new imagebox (its handle at stack index 1) the index
method pushes `true` for `resize` and nil for `image`, both returning 1, and
`imagebox_geometry` (for every available height and width) and `imagebox_extents` return
width = height = 0. -/
theorem C8_widget_imagebox (X : externs) (L : lua_State) (w : Nat) (o : lua_object_t)
    (wd : widget_t) (ho : L.heap[w]? = some o) (hb : o.body = body_t.widget wd) :
    ∃ L1 wd1, widget_imagebox L w = some (w, L1) ∧
      L1.heap = L.heap.set w { o with body := body_t.widget wd1 } ∧
      L1.stack = L.stack ∧ L1.registry = L.registry ∧ L1.invalidated = L.invalidated ∧
      wd1.draw = callback_t.imagebox_draw ∧
      wd1.index = callback_t.luaA_imagebox_index ∧
      wd1.newindex = callback_t.luaA_imagebox_newindex ∧
      wd1.destructor = callback_t.imagebox_destructor ∧
      wd1.geometry = callback_t.imagebox_geometry ∧
      wd1.extents = callback_t.imagebox_extents ∧
      (∃ bg, bg.initialized = false ∧
        wd1.data = some { image := none, bg := bg, valign := alignment_t.AlignTop,
                          resize := true }) ∧
      (o.metatable = some "widget" → ∀ rest : List LuaValue,
        luaA_imagebox_index X { L1 with stack := LuaValue.userdata w :: rest }
            awesome_token_t.A_TK_RESIZE =
          some (1, { L1 with stack := (LuaValue.userdata w :: rest) ++ [LuaValue.boolean true] }) ∧
        luaA_imagebox_index X { L1 with stack := LuaValue.userdata w :: rest }
            awesome_token_t.A_TK_IMAGE =
          some (1, { L1 with stack := (LuaValue.userdata w :: rest) ++ [LuaValue.nil] })) ∧
      (∀ height width : Int, imagebox_geometry L1 wd1 height width =
        some { x := 0, y := 0, width := 0, height := 0 }) ∧
      imagebox_extents L1 wd1 = some { x := 0, y := 0, width := 0, height := 0 } := by
  have hget : (L.heap.set w { o with body := (body_t.widget
      ⟨callback_t.imagebox_draw, callback_t.luaA_imagebox_index,
        callback_t.luaA_imagebox_newindex, callback_t.imagebox_destructor,
        callback_t.imagebox_geometry, callback_t.imagebox_extents,
        some ⟨none, color_zero, alignment_t.AlignTop, true⟩⟩) })[w]? = _ :=
    getElem?_set_same L.heap w o _ ho
  refine ⟨heap_set L w { o with body := (body_t.widget
      ⟨callback_t.imagebox_draw, callback_t.luaA_imagebox_index,
        callback_t.luaA_imagebox_newindex, callback_t.imagebox_destructor,
        callback_t.imagebox_geometry, callback_t.imagebox_extents,
        some ⟨none, color_zero, alignment_t.AlignTop, true⟩⟩) },
    _, ?_, rfl, rfl, rfl, rfl, rfl, rfl, rfl, rfl, rfl, rfl, ⟨color_zero, rfl, rfl⟩, ?_, ?_, ?_⟩
  · simp [widget_imagebox, ho, hb, p_new_imagebox_data]
  · intro hm rest
    have hc : luaL_checkudata
        { heap_set L w { o with body := (body_t.widget
            ⟨callback_t.imagebox_draw, callback_t.luaA_imagebox_index,
              callback_t.luaA_imagebox_newindex, callback_t.imagebox_destructor,
              callback_t.imagebox_geometry, callback_t.imagebox_extents,
              some ⟨none, color_zero, alignment_t.AlignTop, true⟩⟩) } with
          stack := LuaValue.userdata w :: rest } 1 "widget" = some w :=
      luaL_checkudata_head _ "widget" w _ rest rfl hget hm
    have hd : widget_data
        { heap_set L w { o with body := (body_t.widget
            ⟨callback_t.imagebox_draw, callback_t.luaA_imagebox_index,
              callback_t.luaA_imagebox_newindex, callback_t.imagebox_destructor,
              callback_t.imagebox_geometry, callback_t.imagebox_extents,
              some ⟨none, color_zero, alignment_t.AlignTop, true⟩⟩) } with
          stack := LuaValue.userdata w :: rest } w =
        some ⟨none, color_zero, alignment_t.AlignTop, true⟩ := by
      unfold widget_data
      have hget' := hget
      simp only [heap_set] at hget' ⊢
      rw [hget']
    constructor
    · rw [luaA_imagebox_index_resize X _ w _ hc hd]; rfl
    · rw [luaA_imagebox_index_image X _ w _ hc hd]; rfl
  · intro height width
    simp [imagebox_geometry]
  · simp [imagebox_extents]

/-- C8 at a concrete input: a blank widget block at address 0. -/
theorem C8_widget_imagebox_witness :
    ∃ L1, widget_imagebox
        ⟨[LuaValue.userdata 0], [],
          [⟨some "widget", [],
            body_t.widget ⟨callback_t.NULL, callback_t.NULL, callback_t.NULL, callback_t.NULL,
              callback_t.NULL, callback_t.NULL, none⟩⟩], []⟩ 0 = some (0, L1) ∧
      luaA_imagebox_index ⟨fun _ => "", fun _ => "", fun _ => alignment_t.AlignLeft, fun c _ => c⟩
          { L1 with stack := [LuaValue.userdata 0] } awesome_token_t.A_TK_RESIZE =
        some (1, { L1 with stack := [LuaValue.userdata 0, LuaValue.boolean true] }) := by
  obtain ⟨L1, wd1, h1, _, _, _, _, _, _, _, _, _, _, _, h13, _⟩ :=
    C8_widget_imagebox ⟨fun _ => "", fun _ => "", fun _ => alignment_t.AlignLeft, fun c _ => c⟩
      ⟨[LuaValue.userdata 0], [],
        [⟨some "widget", [],
          body_t.widget ⟨callback_t.NULL, callback_t.NULL, callback_t.NULL, callback_t.NULL,
            callback_t.NULL, callback_t.NULL, none⟩⟩], []⟩ 0
      ⟨some "widget", [],
          body_t.widget ⟨callback_t.NULL, callback_t.NULL, callback_t.NULL, callback_t.NULL,
            callback_t.NULL, callback_t.NULL, none⟩⟩ _
      (by decide) rfl
  exact ⟨L1, h1, (h13 rfl []).1⟩

theorem widget_data_some (L : lua_State) (w : Nat) (d : imagebox_data_t)
    (h : widget_data L w = some d) :
    ∃ o wd, L.heap[w]? = some o ∧ o.body = body_t.widget wd ∧ wd.data = some d := by
  unfold widget_data at h
  split at h
  · rename_i o ho
    split at h
    · rename_i wd hb
      exact ⟨o, wd, ho, hb, h⟩
    · cases h
  · cases h

theorem widget_data_store_some (L : lua_State) (w : Nat) (f : imagebox_data_t → imagebox_data_t)
    (o : lua_object_t) (wd : widget_t) (d : imagebox_data_t) (ho : L.heap[w]? = some o)
    (hb : o.body = body_t.widget wd) (hd : wd.data = some d) :
    widget_data_store L w f =
      some (heap_set L w { o with body := body_t.widget { wd with data := some (f d) } }) := by
  simp [widget_data_store, ho, hb, hd]

theorem widget_data_store_inv (L : lua_State) (w : Nat) (f : imagebox_data_t → imagebox_data_t)
    (L1 : lua_State) (h : widget_data_store L w f = some L1) :
    ∃ o wd d, L.heap[w]? = some o ∧ o.body = body_t.widget wd ∧ wd.data = some d ∧
      L1 = heap_set L w { o with body := body_t.widget { wd with data := some (f d) } } := by
  cases hd : widget_data L w with
  | none =>
    exfalso
    unfold widget_data at hd
    unfold widget_data_store at h
    split at h
    · rename_i o ho
      rw [ho] at hd
      split at h
      · rename_i wd hb
        simp only [hb] at hd
        split at h
        · rename_i d hdd
          rw [hdd] at hd; cases hd
        · cases h
      · cases h
    · cases h
  | some d =>
    obtain ⟨o, wd, ho, hb, hdd⟩ := widget_data_some L w d hd
    rw [widget_data_store_some L w f o wd d ho hb hdd] at h
    exact ⟨o, wd, d, ho, hb, hdd, (Option.some.inj h).symm⟩

theorem widget_data_after_store (L : lua_State) (w : Nat) (o : lua_object_t) (wd : widget_t)
    (d' : imagebox_data_t) (ho : L.heap[w]? = some o) :
    widget_data (heap_set L w { o with body := body_t.widget { wd with data := some d' } }) w =
      some d' := by
  have := getElem?_set_same L.heap w o
    { o with body := body_t.widget { wd with data := some d' } } ho
  simp only [widget_data, heap_set, this]

theorem header_heap_set (L : lua_State) (a : Nat) (o o' : lua_object_t)
    (ho : L.heap[a]? = some o) (hh : header o' = header o) (x : Nat) :
    ((heap_set L a o').heap[x]?).map header = (L.heap[x]?).map header := by
  by_cases hx : a = x
  · subst hx
    simp only [heap_set]
    rw [getElem?_set_same L.heap a o o' ho, ho]
    simp [hh]
  · simp only [heap_set]
    rw [List.getElem?_set_ne hx]

theorem WF_of_header (L L' : lua_State) (hr : L'.registry = L.registry)
    (hh : ∀ x : Nat, (L'.heap[x]?).map header = (L.heap[x]?).map header) (h : WF L) :
    WF L' := by
  rw [WF_iff] at h ⊢
  obtain ⟨h1, h2, h3⟩ := h
  rw [hr]
  refine ⟨h1, h2, ?_⟩
  intro a o' ho'
  have := hh a
  rw [ho'] at this
  cases ho : L.heap[a]? with
  | none => rw [ho] at this; simp at this
  | some o =>
    rw [ho] at this
    simp only [Option.map_some', Option.some.injEq, header, Prod.mk.injEq] at this
    have h3' := h3 a o ho
    unfold refs_ok
    rw [this.2, hr]
    exact h3'

theorem body_heap_set_refs (L : lua_State) (a : Nat) (o : lua_object_t) (refs : List luaA_ref)
    (ho : L.heap[a]? = some o) (x : Nat) :
    ((heap_set L a { o with refs := refs }).heap[x]?).map (fun o => o.body) =
      (L.heap[x]?).map (fun o => o.body) := by
  by_cases hx : a = x
  · subst hx
    simp only [heap_set]
    rw [getElem?_set_same L.heap a o _ ho, ho]
    rfl
  · simp only [heap_set]
    rw [List.getElem?_set_ne hx]

theorem widget_data_of_body (L L' : lua_State) (w : Nat)
    (h : (L'.heap[w]?).map (fun o => o.body) = (L.heap[w]?).map (fun o => o.body)) :
    widget_data L' w = widget_data L w := by
  unfold widget_data
  cases h1 : L'.heap[w]? with
  | none =>
    cases h2 : L.heap[w]? with
    | none => rfl
    | some o => rw [h1, h2] at h; simp at h
  | some o' =>
    cases h2 : L.heap[w]? with
    | none => rw [h1, h2] at h; simp at h
    | some o =>
      rw [h1, h2] at h
      simp only [Option.map_some', Option.some.injEq] at h
      simp only [h]

theorem luaA_imagebox_newindex_widget (X : externs) (L : lua_State) (token : awesome_token_t)
    (key : luaA_ref) (r : Int) (L1 : lua_State)
    (h : luaA_imagebox_newindex X L token key = some (r, L1)) :
    ∃ w d, luaL_checkudata L 1 "widget" = some w ∧ widget_data L w = some d := by
  unfold luaA_imagebox_newindex at h
  cases hc : luaL_checkudata L 1 "widget" with
  | none => simp [hc] at h
  | some w =>
    cases hd : widget_data L w with
    | none => simp [hc, hd] at h
    | some d => exact ⟨w, d, rfl, hd⟩

theorem luaA_imagebox_newindex_image (X : externs) (L : lua_State) (key : luaA_ref) (r : Int)
    (L1 : lua_State) (w : Nat) (d : imagebox_data_t)
    (hc : luaL_checkudata L 1 "widget" = some w) (hd : widget_data L w = some d)
    (h : luaA_imagebox_newindex X L awesome_token_t.A_TK_IMAGE key = some (r, L1)) :
    r = 0 ∧ ∃ L0 item L2 L3, image_unref L d.image = some L0 ∧
      image_ref L0 3 key = some (item, L2) ∧
      widget_data_store L2 w (fun d => { d with image := item }) = some L3 ∧
      L1 = widget_invalidate_bywidget L3 w := by
  simp only [luaA_imagebox_newindex, hc, hd] at h
  cases h0 : image_unref L d.image with
  | none => simp [h0] at h
  | some L0 =>
    cases h2 : image_ref L0 3 key with
    | none => simp [h0, h2] at h
    | some p =>
      obtain ⟨item, L2⟩ := p
      cases h3 : widget_data_store L2 w (fun d => { d with image := item }) with
      | none => simp [h0, h2, h3] at h
      | some L3 =>
        simp only [h0, h2, h3, Option.some.injEq, Prod.mk.injEq] at h
        exact ⟨h.1.symm, L0, item, L2, L3, rfl, h2, h3, h.2.symm⟩

theorem luaA_imagebox_newindex_bg (X : externs) (L : lua_State) (key : luaA_ref) (r : Int)
    (L1 : lua_State) (w : Nat) (d : imagebox_data_t)
    (hc : luaL_checkudata L 1 "widget" = some w) (hd : widget_data L w = some d)
    (h : luaA_imagebox_newindex X L awesome_token_t.A_TK_BG key = some (r, L1)) :
    r = 0 ∧ ∃ c L3, widget_data_store L w (fun d => { d with bg := c d }) = some L3 ∧
      L1 = widget_invalidate_bywidget L3 w ∧
      ((lua_isnil L 3 = true ∧ c = fun _ => color_zero) ∨
        (∃ buf, lua_isnil L 3 = false ∧ luaL_checklstring L 3 = some buf ∧
          c = fun d => X.color_init d.bg buf)) := by
  simp only [luaA_imagebox_newindex, hc, hd] at h
  by_cases hn : lua_isnil L 3 = true
  · simp only [hn, if_true] at h
    cases h3 : widget_data_store L w (fun d => { d with bg := color_zero }) with
    | none => simp [h3] at h
    | some L3 =>
      simp only [h3, Option.some.injEq, Prod.mk.injEq] at h
      exact ⟨h.1.symm, fun _ => color_zero, L3, h3, h.2.symm, Or.inl ⟨hn, rfl⟩⟩
  · have hn' : lua_isnil L 3 = false := by simpa using hn
    simp only [hn', Bool.false_eq_true, if_false] at h
    cases hb : luaL_checklstring L 3 with
    | none => simp [hb] at h
    | some buf =>
      cases h3 : widget_data_store L w (fun d => { d with bg := X.color_init d.bg buf }) with
      | none => simp [hb, h3] at h
      | some L3 =>
        simp only [hb, h3, Option.some.injEq, Prod.mk.injEq] at h
        exact ⟨h.1.symm, fun d => X.color_init d.bg buf, L3, h3, h.2.symm,
          Or.inr ⟨buf, hn', rfl, rfl⟩⟩

theorem luaA_imagebox_newindex_resize (X : externs) (L : lua_State) (key : luaA_ref) (r : Int)
    (L1 : lua_State) (w : Nat) (d : imagebox_data_t)
    (hc : luaL_checkudata L 1 "widget" = some w) (hd : widget_data L w = some d)
    (h : luaA_imagebox_newindex X L awesome_token_t.A_TK_RESIZE key = some (r, L1)) :
    r = 0 ∧ ∃ b L3, luaA_checkboolean L 3 = some b ∧
      widget_data_store L w (fun d => { d with resize := b }) = some L3 ∧
      L1 = widget_invalidate_bywidget L3 w := by
  simp only [luaA_imagebox_newindex, hc, hd] at h
  cases hb : luaA_checkboolean L 3 with
  | none => simp [hb] at h
  | some b =>
    cases h3 : widget_data_store L w (fun d => { d with resize := b }) with
    | none => simp [hb, h3] at h
    | some L3 =>
      simp only [hb, h3, Option.some.injEq, Prod.mk.injEq] at h
      exact ⟨h.1.symm, b, L3, rfl, h3, h.2.symm⟩

theorem luaA_imagebox_newindex_valign (X : externs) (L : lua_State) (key : luaA_ref) (r : Int)
    (L1 : lua_State) (w : Nat) (d : imagebox_data_t)
    (hc : luaL_checkudata L 1 "widget" = some w) (hd : widget_data L w = some d)
    (h : luaA_imagebox_newindex X L awesome_token_t.A_TK_VALIGN key = some (r, L1)) :
    r = 0 ∧ ∃ buf L3, luaL_checklstring L 3 = some buf ∧
      widget_data_store L w (fun d => { d with valign := X.draw_align_fromstr buf }) = some L3 ∧
      L1 = widget_invalidate_bywidget L3 w := by
  simp only [luaA_imagebox_newindex, hc, hd] at h
  cases hb : luaL_checklstring L 3 with
  | none => simp [hb] at h
  | some buf =>
    cases h3 : widget_data_store L w (fun d => { d with valign := X.draw_align_fromstr buf }) with
    | none => simp [hb, h3] at h
    | some L3 =>
      simp only [hb, h3, Option.some.injEq, Prod.mk.injEq] at h
      exact ⟨h.1.symm, buf, L3, rfl, h3, h.2.symm⟩

theorem widget_data_store_frame (L : lua_State) (w : Nat)
    (f : imagebox_data_t → imagebox_data_t) (d : imagebox_data_t) (L3 : lua_State)
    (hd : widget_data L w = some d) (h : widget_data_store L w f = some L3) :
    widget_data L3 w = some (f d) ∧ L3.stack = L.stack ∧ L3.registry = L.registry ∧
      L3.invalidated = L.invalidated ∧
      (∀ x : Nat, (L3.heap[x]?).map header = (L.heap[x]?).map header) ∧
      (∀ x : Nat, x ≠ w → L3.heap[x]? = L.heap[x]?) := by
  obtain ⟨o, wd, d', ho, hb, hdd, rfl⟩ := widget_data_store_inv L w f L3 h
  have hd' : d' = d := by
    obtain ⟨o2, wd2, ho2, hb2, hdd2⟩ := widget_data_some L w d hd
    rw [ho] at ho2
    obtain rfl := Option.some.inj ho2
    rw [hb] at hb2
    obtain rfl := body_t.widget.inj hb2
    rw [hdd] at hdd2
    exact Option.some.inj hdd2
  subst hd'
  refine ⟨widget_data_after_store L w o wd (f d') ho, rfl, rfl, rfl, ?_, ?_⟩
  · intro x
    refine header_heap_set L w o _ ho ?_ x
    rfl
  · intro x hx
    simp only [heap_set]
    exact List.getElem?_set_ne (fun e => hx e.symm)

theorem metatable_heap_set_refs (L : lua_State) (a : Nat) (o : lua_object_t)
    (refs : List luaA_ref) (ho : L.heap[a]? = some o) (x : Nat) :
    ((heap_set L a { o with refs := refs }).heap[x]?).map (fun o => o.metatable) =
      (L.heap[x]?).map (fun o => o.metatable) := by
  by_cases hx : a = x
  · subst hx
    simp only [heap_set]
    rw [getElem?_set_same L.heap a o _ ho, ho]
    rfl
  · simp only [heap_set]
    rw [List.getElem?_set_ne hx]

theorem luaL_unref_registry_frame (L : lua_State) (r0 : luaA_ref) :
    (luaL_unref_registry L r0).stack = L.stack ∧
      (luaL_unref_registry L r0).invalidated = L.invalidated ∧
      (luaL_unref_registry L r0).heap = L.heap := by
  unfold luaL_unref_registry
  split <;> exact ⟨rfl, rfl, rfl⟩

theorem prefix_unref_frame (L : lua_State) (item : Option Nat) (L0 : lua_State)
    (h : prefix_unref L item = some L0) :
    L0.stack = L.stack ∧ L0.invalidated = L.invalidated ∧
      (∀ x : Nat, (L0.heap[x]?).map (fun o => o.body) = (L.heap[x]?).map (fun o => o.body)) ∧
      (∀ x : Nat, (L0.heap[x]?).map (fun o => o.metatable) =
        (L.heap[x]?).map (fun o => o.metatable)) := by
  rcases prefix_unref_inv L item L0 h with ⟨_, rfl⟩ | ⟨a, o, r0, rest, _, ho, _, rfl⟩
  · exact ⟨rfl, rfl, fun _ => rfl, fun _ => rfl⟩
  · have hs := luaL_unref_registry_frame L r0
    refine ⟨hs.1, hs.2.1, fun x => ?_, fun x => ?_⟩
    · have := body_heap_set_refs (luaL_unref_registry L r0) a o (luaA_ref_array_take0 o.refs)
        (by rw [hs.2.2]; exact ho) x
      rw [hs.2.2] at this
      exact this
    · have := metatable_heap_set_refs (luaL_unref_registry L r0) a o
        (luaA_ref_array_take0 o.refs) (by rw [hs.2.2]; exact ho) x
      rw [hs.2.2] at this
      exact this

theorem prefix_ref_frame (lua_type : String) (L : lua_State) (ud : Int) (key : luaA_ref)
    (item : Option Nat) (L2 : lua_State) (h : prefix_ref lua_type L ud key = some (item, L2)) :
    L2.stack.length ≤ L.stack.length ∧ L2.invalidated = L.invalidated ∧
      (∀ x : Nat, (L2.heap[x]?).map (fun o => o.body) = (L.heap[x]?).map (fun o => o.body)) ∧
      (∀ x : Nat, (L2.heap[x]?).map (fun o => o.metatable) =
        (L.heap[x]?).map (fun o => o.metatable)) := by
  rcases prefix_ref_inv lua_type L ud key item L2 h with
    ⟨_, _, rfl⟩ | ⟨a, o, i, _, ho, _, _, _, rfl⟩
  · exact ⟨Nat.le_refl _, rfl, fun _ => rfl, fun _ => rfl⟩
  · refine ⟨?_, rfl, fun x => ?_, fun x => ?_⟩
    · simp only [ref_result, List.length_eraseIdx]
      split <;> omega
    · exact body_heap_set_refs L a o (o.refs ++ [key]) ho x
    · exact metatable_heap_set_refs L a o (o.refs ++ [key]) ho x

/-- C7 (frame of the `__newindex` method).  Whenever `luaA_imagebox_newindex` returns, it
returns 0 and the stack has not grown; with `d` the private data of the widget at stack index 1
before the call, the data after the call differ from `d` in the `image` field only for token
`image`, in `bg` only for `bg`, in `resize` only for `resize` and in `valign` only for
`valign`, and for these four tokens the widget is invalidated exactly once; for every other
token the VM state is unchanged (no field changes, no invalidation). -/
theorem C7_newindex_frame (X : externs) (L : lua_State) (token : awesome_token_t)
    (key : luaA_ref) (r : Int) (L1 : lua_State)
    (h : luaA_imagebox_newindex X L token key = some (r, L1)) :
    r = 0 ∧ L1.stack.length ≤ L.stack.length ∧
    ∃ w d, luaL_checkudata L 1 "widget" = some w ∧ widget_data L w = some d ∧
      (token = awesome_token_t.A_TK_IMAGE →
        (∃ image, widget_data L1 w = some { d with image := image }) ∧
        L1.invalidated = w :: L.invalidated) ∧
      (token = awesome_token_t.A_TK_BG →
        (∃ bg, widget_data L1 w = some { d with bg := bg }) ∧
        L1.invalidated = w :: L.invalidated) ∧
      (token = awesome_token_t.A_TK_RESIZE →
        (∃ resize, widget_data L1 w = some { d with resize := resize }) ∧
        L1.invalidated = w :: L.invalidated) ∧
      (token = awesome_token_t.A_TK_VALIGN →
        (∃ valign, widget_data L1 w = some { d with valign := valign }) ∧
        L1.invalidated = w :: L.invalidated) ∧
      (∀ n, token = awesome_token_t.A_TK_other n → L1 = L) := by
  obtain ⟨w, d, hc, hd⟩ := luaA_imagebox_newindex_widget X L token key r L1 h
  cases token with
  | A_TK_IMAGE =>
    obtain ⟨hr, L0, item, L2, L3, h0, h2, h3, rfl⟩ :=
      luaA_imagebox_newindex_image X L key r L1 w d hc hd h
    obtain ⟨hs0, hi0, hb0, _⟩ := prefix_unref_frame L d.image L0 h0
    obtain ⟨hs2, hi2, hb2, _⟩ := prefix_ref_frame "image" L0 3 key item L2 h2
    have hd2 : widget_data L2 w = some d := by
      rw [widget_data_of_body L0 L2 w (hb2 w), widget_data_of_body L L0 w (hb0 w)]
      exact hd
    obtain ⟨hd3, hs3, _, hi3, _, _⟩ :=
      widget_data_store_frame L2 w (fun d => { d with image := item }) d L3 hd2 h3
    refine ⟨hr, ?_, w, d, hc, hd, ?_, ?_, ?_, ?_, ?_⟩
    · simp only [widget_invalidate_bywidget, hs3]
      rw [← hs0]; exact hs2
    · intro _
      refine ⟨⟨item, ?_⟩, ?_⟩
      · exact hd3
      · simp only [widget_invalidate_bywidget, hi3, hi2, hi0]
    all_goals intros; simp_all
  | A_TK_BG =>
    obtain ⟨hr, c, L3, h3, rfl, _⟩ := luaA_imagebox_newindex_bg X L key r L1 w d hc hd h
    obtain ⟨hd3, hs3, _, hi3, _, _⟩ :=
      widget_data_store_frame L w (fun d => { d with bg := c d }) d L3 hd h3
    refine ⟨hr, ?_, w, d, hc, hd, ?_, ?_, ?_, ?_, ?_⟩
    · simp only [widget_invalidate_bywidget, hs3]; exact Nat.le_refl _
    · intro hh; cases hh
    · intro _
      exact ⟨⟨c d, hd3⟩, by simp only [widget_invalidate_bywidget, hi3]⟩
    all_goals intros; simp_all
  | A_TK_RESIZE =>
    obtain ⟨hr, b, L3, _, h3, rfl⟩ := luaA_imagebox_newindex_resize X L key r L1 w d hc hd h
    obtain ⟨hd3, hs3, _, hi3, _, _⟩ :=
      widget_data_store_frame L w (fun d => { d with resize := b }) d L3 hd h3
    refine ⟨hr, ?_, w, d, hc, hd, ?_, ?_, ?_, ?_, ?_⟩
    · simp only [widget_invalidate_bywidget, hs3]; exact Nat.le_refl _
    · intro hh; cases hh
    · intro hh; cases hh
    · intro _
      exact ⟨⟨b, hd3⟩, by simp only [widget_invalidate_bywidget, hi3]⟩
    all_goals intros; simp_all
  | A_TK_VALIGN =>
    obtain ⟨hr, buf, L3, _, h3, rfl⟩ := luaA_imagebox_newindex_valign X L key r L1 w d hc hd h
    obtain ⟨hd3, hs3, _, hi3, _, _⟩ :=
      widget_data_store_frame L w (fun d => { d with valign := X.draw_align_fromstr buf }) d L3
        hd h3
    refine ⟨hr, ?_, w, d, hc, hd, ?_, ?_, ?_, ?_, ?_⟩
    · simp only [widget_invalidate_bywidget, hs3]; exact Nat.le_refl _
    · intro hh; cases hh
    · intro hh; cases hh
    · intro hh; cases hh
    · intro _
      exact ⟨⟨X.draw_align_fromstr buf, hd3⟩, by simp only [widget_invalidate_bywidget, hi3]⟩
    · intro n hh; cases hh
  | A_TK_other n =>
    simp only [luaA_imagebox_newindex, hc, hd, Option.some.injEq, Prod.mk.injEq] at h
    refine ⟨h.1.symm, by rw [h.2], w, d, hc, hd, ?_, ?_, ?_, ?_, ?_⟩
    · intro hh; cases hh
    · intro hh; cases hh
    · intro hh; cases hh
    · intro hh; cases hh
    · intro _ _; exact h.2.symm

/-- C7 at a concrete input: `false` assigned to `resize` of a new imagebox. -/
theorem C7_newindex_frame_witness :
    ∃ L1 w d, luaA_imagebox_newindex sample_externs
        (sample_state "resize" (LuaValue.boolean false)) awesome_token_t.A_TK_RESIZE 2 =
          some (0, L1) ∧
      widget_data (sample_state "resize" (LuaValue.boolean false)) w = some d ∧
      (∃ resize, widget_data L1 w = some { d with resize := resize }) ∧
      L1.invalidated = [w] := by
  have hrun : luaA_imagebox_newindex sample_externs
      (sample_state "resize" (LuaValue.boolean false)) awesome_token_t.A_TK_RESIZE 2 =
      some (0, widget_invalidate_bywidget
        (heap_set (sample_state "resize" (LuaValue.boolean false)) 0
          { metatable := some "widget", refs := [],
            body := body_t.widget (sample_widget
              { image := none, bg := color_zero, valign := alignment_t.AlignTop,
                resize := false }) }) 0) := by decide
  obtain ⟨_, _, w, d, _, hd, _, _, h2, _⟩ :=
    C7_newindex_frame sample_externs (sample_state "resize" (LuaValue.boolean false))
      awesome_token_t.A_TK_RESIZE 2 0 _ hrun
  exact ⟨_, w, d, hrun, hd, (h2 rfl).1, (h2 rfl).2⟩

theorem luaA_imagebox_index_frame (X : externs) (L : lua_State) (token : awesome_token_t)
    (r : Int) (L2 : lua_State) (h : luaA_imagebox_index X L token = some (r, L2)) :
    L2.heap = L.heap ∧ L2.registry = L.registry ∧ L2.invalidated = L.invalidated ∧
      ((r = 0 ∧ L2.stack = L.stack) ∨ (r = 1 ∧ ∃ v, L2.stack = L.stack ++ [v])) := by
  unfold luaA_imagebox_index at h
  cases hc : luaL_checkudata L 1 "widget" with
  | none => simp [hc] at h
  | some w =>
    cases hd : widget_data L w with
    | none => simp [hc, hd] at h
    | some d =>
      simp only [hc, hd] at h
      cases token with
      | A_TK_IMAGE =>
        simp only at h
        cases hp : image_push L d.image with
        | none => simp [hp] at h
        | some p =>
          obtain ⟨r', L'⟩ := p
          simp only [hp, Option.some.injEq, Prod.mk.injEq] at h
          obtain ⟨_, h2, h3, h4, v, h5⟩ := prefix_push_stack L d.image r' L' hp
          obtain ⟨rfl, rfl⟩ := h
          exact ⟨h3, h2, h4, Or.inr ⟨rfl, v, h5⟩⟩
      | A_TK_BG =>
        simp only [Option.some.injEq, Prod.mk.injEq] at h
        obtain ⟨rfl, rfl⟩ := h
        exact ⟨rfl, rfl, rfl, Or.inr ⟨rfl, _, rfl⟩⟩
      | A_TK_RESIZE =>
        simp only [Option.some.injEq, Prod.mk.injEq] at h
        obtain ⟨rfl, rfl⟩ := h
        exact ⟨rfl, rfl, rfl, Or.inr ⟨rfl, _, rfl⟩⟩
      | A_TK_VALIGN =>
        simp only [Option.some.injEq, Prod.mk.injEq] at h
        obtain ⟨rfl, rfl⟩ := h
        exact ⟨rfl, rfl, rfl, Or.inr ⟨rfl, _, rfl⟩⟩
      | A_TK_other n =>
        simp only [Option.some.injEq, Prod.mk.injEq] at h
        obtain ⟨rfl, rfl⟩ := h
        exact ⟨rfl, rfl, rfl, Or.inl ⟨rfl, rfl⟩⟩

theorem metatable_of_map (L L' : lua_State) (w : Nat) (o : lua_object_t)
    (h : (L'.heap[w]?).map (fun o => o.metatable) = (L.heap[w]?).map (fun o => o.metatable))
    (ho : L.heap[w]? = some o) : ∃ o', L'.heap[w]? = some o' ∧ o'.metatable = o.metatable := by
  rw [ho] at h
  cases h1 : L'.heap[w]? with
  | none => rw [h1] at h; simp at h
  | some o' =>
    rw [h1] at h
    simp only [Option.map_some', Option.some.injEq] at h
    exact ⟨o', rfl, h⟩

theorem header_of_map (L L' : lua_State) (w : Nat) (o : lua_object_t)
    (h : (L'.heap[w]?).map header = (L.heap[w]?).map header)
    (ho : L.heap[w]? = some o) :
    ∃ o', L'.heap[w]? = some o' ∧ o'.metatable = o.metatable ∧ o'.refs = o.refs := by
  rw [ho] at h
  cases h1 : L'.heap[w]? with
  | none => rw [h1] at h; simp at h
  | some o' =>
    rw [h1] at h
    simp only [Option.map_some', Option.some.injEq, header, Prod.mk.injEq] at h
    exact ⟨o', rfl, h.1, h.2⟩

/-- C6 (property write/read round trip), for the imagebox at stack index 1 of `L`.
* After a successful `__newindex` with token `image` in a well-formed state, `luaL_ref`
  returning a key that is not negative and not in use when it is called, the value `v` at stack
  index 3 was nil or a userdata, and `__index` with token `image` on the same widget (at stack
  index 1, whatever else is on the stack) pushes exactly `v` and returns 1.
* After a successful `__newindex` with token `resize`, the value at index 3 was a boolean `b`,
  and `__index` with token `resize` pushes exactly `b` and returns 1.
* `__index` never changes the userdata blocks (hence the widget's data), the registry or the
  invalidation log: it only pushes its `r` results on the stack. -/
theorem C6_newindex_index_roundtrip (X : externs) (L : lua_State) (key : luaA_ref) :
    (∀ (r : Int) (L1 : lua_State), WF L → 0 ≤ key →
      (∀ w d L0, luaL_checkudata L 1 "widget" = some w → widget_data L w = some d →
        image_unref L d.image = some L0 → L0.registry.lookup key = none) →
      luaA_imagebox_newindex X L awesome_token_t.A_TK_IMAGE key = some (r, L1) →
      ∃ w v, luaL_checkudata L 1 "widget" = some w ∧ lua_value L 3 = some v ∧
        (v = LuaValue.nil ∨ ∃ a, v = LuaValue.userdata a) ∧
        ∀ rest : List LuaValue,
          luaA_imagebox_index X { L1 with stack := LuaValue.userdata w :: rest }
              awesome_token_t.A_TK_IMAGE =
            some (1, { L1 with stack := (LuaValue.userdata w :: rest) ++ [v] })) ∧
    (∀ (r : Int) (L1 : lua_State),
      luaA_imagebox_newindex X L awesome_token_t.A_TK_RESIZE key = some (r, L1) →
      ∃ w b, luaL_checkudata L 1 "widget" = some w ∧ lua_value L 3 = some (LuaValue.boolean b) ∧
        ∀ rest : List LuaValue,
          luaA_imagebox_index X { L1 with stack := LuaValue.userdata w :: rest }
              awesome_token_t.A_TK_RESIZE =
            some (1, { L1 with stack := (LuaValue.userdata w :: rest) ++ [LuaValue.boolean b] })) ∧
    (∀ (token : awesome_token_t) (r : Int) (L2 : lua_State),
      luaA_imagebox_index X L token = some (r, L2) →
      L2.heap = L.heap ∧ L2.registry = L.registry ∧ L2.invalidated = L.invalidated ∧
        ((r = 0 ∧ L2.stack = L.stack) ∨ (r = 1 ∧ ∃ v, L2.stack = L.stack ++ [v]))) := by
  refine ⟨?_, ?_, fun token r L2 h => luaA_imagebox_index_frame X L token r L2 h⟩
  · intro r L1 hwf hk hfresh h
    obtain ⟨w, d, hc, hd⟩ := luaA_imagebox_newindex_widget X L _ key r L1 h
    obtain ⟨_, L0, item, L2, L3, h0, h2, h3, rfl⟩ :=
      luaA_imagebox_newindex_image X L key r L1 w d hc hd h
    obtain ⟨_, ow, how, hmw⟩ := luaL_checkudata_some L 1 "widget" w hc
    obtain ⟨hs0, _, hb0, hm0⟩ := prefix_unref_frame L d.image L0 h0
    obtain ⟨_, _, hb2, hm2⟩ := prefix_ref_frame "image" L0 3 key item L2 h2
    have hwf0 : WF L0 := WF_prefix_unref L d.image L0 hwf h0
    have hwf2 : WF L2 :=
      WF_prefix_ref "image" L0 3 key item L2 hwf0 hk (hfresh w d L0 hc hd h0) h2
    have hd2 : widget_data L2 w = some d := by
      rw [widget_data_of_body L0 L2 w (hb2 w), widget_data_of_body L L0 w (hb0 w)]
      exact hd
    obtain ⟨hd3, _, hr3, _, hh3, _⟩ :=
      widget_data_store_frame L2 w (fun d => { d with image := item }) d L3 hd2 h3
    have hwf3 : WF L3 := WF_of_header L2 L3 hr3 hh3 hwf2
    -- the widget keeps its metatable
    obtain ⟨o0, ho0, hmo0⟩ := metatable_of_map L L0 w ow (hm0 w) how
    obtain ⟨o2, ho2, hmo2⟩ := metatable_of_map L0 L2 w o0 (hm2 w) ho0
    obtain ⟨o3, ho3, hmo3, _⟩ := header_of_map L2 L3 w o2 (hh3 w) ho2
    have hm3 : o3.metatable = some "widget" := by rw [hmo3, hmo2, hmo0, hmw]
    have hidx : ∀ rest : List LuaValue,
        luaA_imagebox_index X
            { widget_invalidate_bywidget L3 w with stack := LuaValue.userdata w :: rest }
            awesome_token_t.A_TK_IMAGE =
          match image_push
            { widget_invalidate_bywidget L3 w with stack := LuaValue.userdata w :: rest }
            item with
          | some (_, L') => some (1, L')
          | none => none := by
      intro rest
      have hc' : luaL_checkudata
          { widget_invalidate_bywidget L3 w with stack := LuaValue.userdata w :: rest } 1
          "widget" = some w :=
        luaL_checkudata_head _ "widget" w o3 rest rfl ho3 hm3
      have hd' : widget_data
          { widget_invalidate_bywidget L3 w with stack := LuaValue.userdata w :: rest } w =
          some { d with image := item } := hd3
      rw [luaA_imagebox_index_image X _ w _ hc' hd']
    rcases prefix_ref_inv "image" L0 3 key item L2 h2 with
      ⟨hv, rfl, rfl⟩ | ⟨a, o, i, hv, ho, _, _, rfl, rfl⟩
    · refine ⟨w, LuaValue.nil, hc, ?_, Or.inl rfl, ?_⟩
      · simpa [lua_value, index2adr, hs0] using hv
      · intro rest
        rw [hidx rest]
        rfl
    · refine ⟨w, LuaValue.userdata a, hc, ?_, Or.inr ⟨a, rfl⟩, ?_⟩
      · simpa [lua_value, index2adr, hs0] using hv
      · intro rest
        rw [hidx rest]
        have hoa : (ref_result L0 i a o key).heap[a]? = some { o with refs := o.refs ++ [key] } :=
          getElem?_set_same _ _ _ _ ho
        obtain ⟨oa3, hoa3, _, hra3⟩ := header_of_map _ L3 a _ (hh3 a) hoa
        have hwf' : WF { widget_invalidate_bywidget L3 w with
            stack := LuaValue.userdata w :: rest } := WF_congr L3 _ rfl rfl hwf3
        have hpush := prefix_push_WF
          { widget_invalidate_bywidget L3 w with stack := LuaValue.userdata w :: rest } a oa3
          hwf' hoa3 (by rw [hra3]; simp)
        simp only [image_push, hpush]
  · intro r L1 h
    obtain ⟨w, d, hc, hd⟩ := luaA_imagebox_newindex_widget X L _ key r L1 h
    obtain ⟨_, b, L3, hb, h3, rfl⟩ := luaA_imagebox_newindex_resize X L key r L1 w d hc hd h
    obtain ⟨_, ow, how, hmw⟩ := luaL_checkudata_some L 1 "widget" w hc
    obtain ⟨hd3, _, _, _, hh3, _⟩ :=
      widget_data_store_frame L w (fun d => { d with resize := b }) d L3 hd h3
    obtain ⟨o3, ho3, hmo3, _⟩ := header_of_map L L3 w ow (hh3 w) how
    refine ⟨w, b, hc, ?_, ?_⟩
    · unfold luaA_checkboolean at hb
      split at hb
      · rename_i b' hv
        obtain rfl := Option.some.inj hb
        exact hv
      · cases hb
    · intro rest
      have hc' : luaL_checkudata
          { widget_invalidate_bywidget L3 w with stack := LuaValue.userdata w :: rest } 1
          "widget" = some w :=
        luaL_checkudata_head _ "widget" w o3 rest rfl ho3 (by rw [hmo3, hmw])
      have hd' : widget_data
          { widget_invalidate_bywidget L3 w with stack := LuaValue.userdata w :: rest } w =
          some { d with resize := b } := hd3
      rw [luaA_imagebox_index_resize X _ w _ hc' hd']
      rfl

/-- C6 at a concrete input: the image at address 1 assigned to `image` of a new imagebox,
`luaL_ref` returning key 2; reading `image` back pushes that image. -/
theorem C6_newindex_index_roundtrip_witness :
    luaA_imagebox_newindex sample_externs (sample_state "image" (LuaValue.userdata 1))
        awesome_token_t.A_TK_IMAGE 2 = some (0, sample_state_image) ∧
      luaA_imagebox_index sample_externs sample_state_image awesome_token_t.A_TK_IMAGE =
        some (1, { sample_state_image with stack :=
          [LuaValue.userdata 0, LuaValue.string "image", LuaValue.userdata 1] }) := by
  have h1 : luaA_imagebox_newindex sample_externs
      (sample_state "image" (LuaValue.userdata 1)) awesome_token_t.A_TK_IMAGE 2 =
        some (0, sample_state_image) := by decide
  have hw0 : luaL_checkudata (sample_state "image" (LuaValue.userdata 1)) 1 "widget" =
      some 0 := by decide
  have hd0 : widget_data (sample_state "image" (LuaValue.userdata 1)) 0 =
      some { image := none, bg := color_zero, valign := alignment_t.AlignTop,
             resize := true } := by decide
  have hv0 : lua_value (sample_state "image" (LuaValue.userdata 1)) 3 =
      some (LuaValue.userdata 1) := by decide
  obtain ⟨w, v, hw, hv, _, hidx⟩ :=
    (C6_newindex_index_roundtrip sample_externs (sample_state "image" (LuaValue.userdata 1)) 2).1
      0 sample_state_image (by decide) (by decide)
      (by
        intro w d L0 hc hd h0
        rw [hw0] at hc
        obtain rfl := Option.some.inj hc
        rw [hd0] at hd
        obtain rfl := Option.some.inj hd
        simp only [image_unref, prefix_unref] at h0
        obtain rfl := Option.some.inj h0
        decide)
      h1
  rw [hw0] at hw
  obtain rfl := Option.some.inj hw
  rw [hv0] at hv
  obtain rfl := Option.some.inj hv
  exact ⟨h1, hidx [LuaValue.string "image"]⟩

theorem tdiv_two_near (n : Int) :
    2 * Int.tdiv n 2 ≤ n + 1 ∧ n ≤ 2 * Int.tdiv n 2 + 1 := by
  rcases Int.le_total 0 n with h | h
  · rw [Int.tdiv_eq_ediv h (by decide)]
    omega
  · have h' : 0 ≤ -n := by omega
    have e : Int.tdiv n 2 = -((-n) / 2) := by
      rw [← Int.tdiv_eq_ediv h' (by decide), Int.neg_tdiv, Int.neg_neg]
    rw [e]
    omega

/-- What does hold of `imagebox_draw` (the part of C3 that the code satisfies): with an image
of height `iheight` and a geometry of non-zero width and height, the image is drawn at
`x = geometry.x`; with resize off the scale ratio is 1 and `y` aligns the image as `valign`
says (top: `y = geometry.y`; bottom: `y + iheight = geometry.y + geometry.height`; center: the
free space above and below differ by at most one pixel); with resize on the ratio is the
double quotient `geometry.height / iheight` and a top-aligned image is drawn at
`y = geometry.y`. -/
theorem imagebox_draw_aligned (L : lua_State) (widget : widget_t) (d : imagebox_data_t)
    (ctx : draw_context_t) (geometry : area_t) (image : Nat) (iheight : Int)
    (hd : widget.data = some d) (hi : d.image = some image)
    (hh : image_getheight L image = some iheight)
    (hw : geometry.width ≠ 0) (hg : geometry.height ≠ 0) :
    ∃ y ratio,
      imagebox_draw L widget ctx geometry =
        some (draw_image
          (if d.bg.initialized then draw_rectangle ctx geometry (double.ofInt 1) true d.bg
           else ctx) geometry.x y ratio image) ∧
      (d.resize = false → ratio = double.ofInt 1) ∧
      (d.resize = true →
        ratio = double.div (double.ofInt geometry.height) (double.ofInt iheight)) ∧
      (d.valign = alignment_t.AlignTop → y = geometry.y) ∧
      (d.resize = false → d.valign = alignment_t.AlignBottom →
        y + iheight = geometry.y + geometry.height) ∧
      (d.resize = false → d.valign = alignment_t.AlignCenter →
        (y - geometry.y) - (geometry.y + geometry.height - (y + iheight)) ≤ 1 ∧
        (geometry.y + geometry.height - (y + iheight)) - (y - geometry.y) ≤ 1) := by
  have hnear := tdiv_two_near (geometry.height - iheight)
  refine ⟨(match d.valign with
      | alignment_t.AlignBottom => geometry.y + (geometry.height - iheight)
      | alignment_t.AlignCenter => geometry.y + Int.tdiv (geometry.height - iheight) 2
      | _ => geometry.y),
    (if d.resize then double.div (double.ofInt geometry.height) (double.ofInt iheight)
      else double.ofInt 1), ?_, ?_, ?_, ?_, ?_, ?_⟩
  · simp only [imagebox_draw, hd, hi, hh, ne_eq, hw, hg, not_false_eq_true, and_self, if_true]
  · intro hr; simp [hr]
  · intro hr; simp [hr]
  · intro hv; simp [hv]
  · intro _ hv; simp only [hv]; omega
  · intro _ hv; simp only [hv]; omega

/-- The failing input of C3: a `16 x 10` image in an imagebox with resize on and
`valign = AlignBottom`, drawn in the geometry `x = 0, y = 0, width = 50, height = 20`.  The
image is drawn at `y = 10` with ratio 2, so that its bottom edge `y + ratio * iheight` is at 30
and not at `geometry.y + geometry.height = 20`. -/
theorem C3_draw_bottom_with_resize :
    ∃ ratio, imagebox_draw
        ⟨[], [], [⟨some "image", [], body_t.image 16 10⟩], []⟩
        (sample_widget ⟨some 0, color_zero, alignment_t.AlignBottom, true⟩) []
        ⟨0, 0, 50, 20⟩ = some [draw_op.image 0 10 ratio 0] ∧
      ratio = double.div (double.ofInt 20) (double.ofInt 10) ∧
      ratio.toRat = 2 ∧
      (10 : ℚ) + ratio.toRat * 10 = 30 ∧
      (10 : ℚ) + ratio.toRat * 10 ≠ 0 + 20 := by
  have hr : double.div (double.ofInt 20) (double.ofInt 10) =
      double.finite 4503599627370496 (-51) := by decide
  refine ⟨double.finite 4503599627370496 (-51), by decide, hr.symm, ?_, ?_, ?_⟩ <;>
    norm_num [double.toRat]

theorem log2_aux_spec (fuel n : Nat) (hn : 1 ≤ n) (hf : n ≤ fuel) :
    2 ^ log2_aux fuel n ≤ n ∧ n < 2 ^ (log2_aux fuel n + 1) := by
  induction fuel generalizing n with
  | zero => omega
  | succ f ih =>
    unfold log2_aux
    by_cases h2 : 2 ≤ n
    · simp only [h2, if_true]
      have hdiv : 1 ≤ n / 2 := by omega
      have hle : n / 2 ≤ f := by omega
      obtain ⟨h1, h3⟩ := ih (n / 2) hdiv hle
      rw [pow_succ] at h3 ⊢
      rw [pow_succ]
      constructor <;> omega
    · simp only [h2, if_false]
      constructor <;> simp <;> omega

theorem log2_spec (n : Nat) (hn : 1 ≤ n) : 2 ^ log2 n ≤ n ∧ n < 2 ^ (log2 n + 1) :=
  log2_aux_spec n n hn (Nat.le_refl n)

theorem round_even_spec (a b : Nat) (hb : 0 < b) :
    2 * (round_even a b * b) ≤ 2 * a + b ∧ 2 * a ≤ 2 * (round_even a b * b) + b := by
  have hdm := Nat.div_add_mod a b
  have hlt := Nat.mod_lt a hb
  have e : b * (a / b) = a / b * b := Nat.mul_comm _ _
  unfold round_even
  simp only
  split
  · constructor <;> omega
  · split
    · rw [Nat.add_mul]; constructor <;> omega
    · split
      · constructor <;> omega
      · rw [Nat.add_mul]; constructor <;> omega

theorem zpow_toNat_of_nonneg (k : Int) (hk : 0 ≤ k) : (2 : ℚ) ^ k = ((2 ^ k.toNat : Nat) : ℚ) := by
  have h : (2 : ℚ) ^ k = (2 : ℚ) ^ ((k.toNat : Nat) : Int) := by
    rw [Int.toNat_of_nonneg hk]
  rw [h, zpow_natCast]
  push_cast
  rfl

theorem zpow_toNat_of_neg (k : Int) (hk : k < 0) :
    (2 : ℚ) ^ k = 1 / ((2 ^ (-k).toNat : Nat) : ℚ) := by
  have h1 : (2 : ℚ) ^ k = ((2 : ℚ) ^ (-k))⁻¹ := by rw [zpow_neg, inv_inv]
  rw [h1, zpow_toNat_of_nonneg (-k) (by omega)]
  simp

theorem ilog2_cond_iff (p q : Nat) (hq : 0 < q) (k : Int) :
    ((0 ≤ k ∧ q * 2 ^ k.toNat ≤ p) ∨ (k < 0 ∧ q ≤ p * 2 ^ (-k).toNat)) ↔
      (2 : ℚ) ^ k ≤ (p : ℚ) / (q : ℚ) := by
  have hq' : (0 : ℚ) < (q : ℚ) := by exact_mod_cast hq
  rcases lt_or_le k 0 with hk | hk
  · have h2 : (0 : ℚ) < ((2 ^ (-k).toNat : Nat) : ℚ) := by positivity
    rw [zpow_toNat_of_neg k hk, div_le_div_iff₀ h2 hq']
    constructor
    · rintro (⟨h0, _⟩ | ⟨_, h⟩)
      · omega
      · have : ((q : Nat) : ℚ) ≤ ((p * 2 ^ (-k).toNat : Nat) : ℚ) := by exact_mod_cast h
        push_cast at this ⊢
        linarith
    · intro h
      right
      refine ⟨hk, ?_⟩
      have : ((q : Nat) : ℚ) ≤ ((p * 2 ^ (-k).toNat : Nat) : ℚ) := by
        push_cast at h ⊢
        linarith
      exact_mod_cast this
  · rw [zpow_toNat_of_nonneg k hk, le_div_iff₀ hq']
    constructor
    · rintro (⟨_, h⟩ | ⟨h0, _⟩)
      · have : ((q * 2 ^ k.toNat : Nat) : ℚ) ≤ (p : ℚ) := by exact_mod_cast h
        push_cast at this ⊢
        linarith
      · omega
    · intro h
      left
      refine ⟨hk, ?_⟩
      have : ((q * 2 ^ k.toNat : Nat) : ℚ) ≤ (p : ℚ) := by
        push_cast at h ⊢
        linarith
      exact_mod_cast this

theorem ilog2_spec (p q : Nat) (hp : 0 < p) (hq : 0 < q) :
    (2 : ℚ) ^ ilog2 p q ≤ (p : ℚ) / (q : ℚ) ∧ (p : ℚ) / (q : ℚ) < (2 : ℚ) ^ (ilog2 p q + 1) := by
  have hq' : (0 : ℚ) < (q : ℚ) := by exact_mod_cast hq
  obtain ⟨hp1, hp2⟩ := log2_spec p hp
  obtain ⟨hq1, hq2⟩ := log2_spec q hq
  have hp1' : (2 : ℚ) ^ (log2 p : Int) ≤ (p : ℚ) := by
    rw [zpow_natCast]; exact_mod_cast hp1
  have hp2' : (p : ℚ) < (2 : ℚ) ^ ((log2 p : Int) + 1) := by
    have : ((log2 p : Int) + 1) = ((log2 p + 1 : Nat) : Int) := by push_cast; ring
    rw [this, zpow_natCast]; exact_mod_cast hp2
  have hq1' : (2 : ℚ) ^ (log2 q : Int) ≤ (q : ℚ) := by
    rw [zpow_natCast]; exact_mod_cast hq1
  have hq2' : (q : ℚ) < (2 : ℚ) ^ ((log2 q : Int) + 1) := by
    have : ((log2 q : Int) + 1) = ((log2 q + 1 : Nat) : Int) := by push_cast; ring
    rw [this, zpow_natCast]; exact_mod_cast hq2
  have h2 : (2 : ℚ) ≠ 0 := by norm_num
  have hpos : ∀ z : Int, (0 : ℚ) < (2 : ℚ) ^ z := fun z => zpow_pos (by norm_num) z
  -- p / q < 2 ^ (k0 + 1) and 2 ^ (k0 - 1) < p / q
  have hup : (p : ℚ) / (q : ℚ) < (2 : ℚ) ^ ((log2 p : Int) - (log2 q : Int) + 1) := by
    rw [div_lt_iff₀ hq']
    have e : (2 : ℚ) ^ ((log2 p : Int) - (log2 q : Int) + 1) * (2 : ℚ) ^ (log2 q : Int) =
        (2 : ℚ) ^ ((log2 p : Int) + 1) := by
      rw [← zpow_add₀ h2]; congr 1; ring
    calc (p : ℚ) < (2 : ℚ) ^ ((log2 p : Int) + 1) := hp2'
      _ = (2 : ℚ) ^ ((log2 p : Int) - (log2 q : Int) + 1) * (2 : ℚ) ^ (log2 q : Int) := e.symm
      _ ≤ (2 : ℚ) ^ ((log2 p : Int) - (log2 q : Int) + 1) * (q : ℚ) :=
          mul_le_mul_of_nonneg_left hq1' (le_of_lt (hpos _))
  have hlow : (2 : ℚ) ^ ((log2 p : Int) - (log2 q : Int) - 1) ≤ (p : ℚ) / (q : ℚ) := by
    rw [le_div_iff₀ hq']
    have e : (2 : ℚ) ^ ((log2 p : Int) - (log2 q : Int) - 1) * (2 : ℚ) ^ ((log2 q : Int) + 1) =
        (2 : ℚ) ^ (log2 p : Int) := by
      rw [← zpow_add₀ h2]; congr 1; ring
    calc (2 : ℚ) ^ ((log2 p : Int) - (log2 q : Int) - 1) * (q : ℚ)
        ≤ (2 : ℚ) ^ ((log2 p : Int) - (log2 q : Int) - 1) * (2 : ℚ) ^ ((log2 q : Int) + 1) :=
          mul_le_mul_of_nonneg_left (le_of_lt hq2') (le_of_lt (hpos _))
      _ = (2 : ℚ) ^ (log2 p : Int) := e
      _ ≤ (p : ℚ) := hp1'
  unfold ilog2
  simp only
  split
  · rename_i hc
    exact ⟨(ilog2_cond_iff p q hq _).1 hc, hup⟩
  · rename_i hc
    have hnot : ¬ (2 : ℚ) ^ ((log2 p : Int) - (log2 q : Int)) ≤ (p : ℚ) / (q : ℚ) :=
      fun h => hc ((ilog2_cond_iff p q hq _).2 h)
    refine ⟨hlow, ?_⟩
    have : (log2 p : Int) - (log2 q : Int) - 1 + 1 = (log2 p : Int) - (log2 q : Int) := by ring
    rw [this]
    exact not_le.1 hnot

theorem round_binary64_spec (p q : Nat) (hp : 0 < p) (hq : 0 < q) :
    ∃ M e, round_binary64 p q = (M, e) ∧
      (p : ℚ) / (q : ℚ) - (2 : ℚ) ^ e / 2 ≤ (M : ℚ) * (2 : ℚ) ^ e ∧
      (M : ℚ) * (2 : ℚ) ^ e ≤ (p : ℚ) / (q : ℚ) + (2 : ℚ) ^ e / 2 ∧
      (2 : ℚ) ^ e ≤ (p : ℚ) / (q : ℚ) * (2 : ℚ) ^ (-52 : Int) := by
  have hq' : (0 : ℚ) < (q : ℚ) := by exact_mod_cast hq
  have h2 : (2 : ℚ) ≠ 0 := by norm_num
  obtain ⟨hk1, _⟩ := ilog2_spec p q hp hq
  have hbound : (2 : ℚ) ^ (-(52 - ilog2 p q)) ≤ (p : ℚ) / (q : ℚ) * (2 : ℚ) ^ (-52 : Int) := by
    have e : (2 : ℚ) ^ (-(52 - ilog2 p q)) = (2 : ℚ) ^ ilog2 p q * (2 : ℚ) ^ (-52 : Int) := by
      rw [← zpow_add₀ h2]; congr 1; ring
    rw [e]
    exact mul_le_mul_of_nonneg_right hk1 (le_of_lt (zpow_pos (by norm_num) _))
  unfold round_binary64
  simp only
  rcases lt_or_le (52 - ilog2 p q) 0 with hs | hs
  · -- the quotient has more than 53 bits before the binary point
    have hn : ¬ (0 ≤ 52 - ilog2 p q) := by omega
    simp only [hn, if_false]
    refine ⟨_, _, rfl, ?_, ?_, hbound⟩
    all_goals
      have hE : (2 : ℚ) ^ (-(52 - ilog2 p q)) = ((2 ^ (-(52 - ilog2 p q)).toNat : Nat) : ℚ) :=
        zpow_toNat_of_nonneg _ (by omega)
      rw [hE]
      obtain ⟨r1, r2⟩ := round_even_spec p (q * 2 ^ (-(52 - ilog2 p q)).toNat)
        (Nat.mul_pos hq (Nat.pow_pos (by decide)))
      have r1' : (2 : ℚ) * ((round_even p (q * 2 ^ (-(52 - ilog2 p q)).toNat) : ℚ) *
          ((q : ℚ) * ((2 ^ (-(52 - ilog2 p q)).toNat : Nat) : ℚ))) ≤
          2 * (p : ℚ) + (q : ℚ) * ((2 ^ (-(52 - ilog2 p q)).toNat : Nat) : ℚ) := by
        exact_mod_cast r1
      have r2' : (2 : ℚ) * (p : ℚ) ≤
          2 * ((round_even p (q * 2 ^ (-(52 - ilog2 p q)).toNat) : ℚ) *
            ((q : ℚ) * ((2 ^ (-(52 - ilog2 p q)).toNat : Nat) : ℚ))) +
          (q : ℚ) * ((2 ^ (-(52 - ilog2 p q)).toNat : Nat) : ℚ) := by
        exact_mod_cast r2
      generalize ((2 ^ (-(52 - ilog2 p q)).toNat : Nat) : ℚ) = N at r1' r2' ⊢
      generalize (round_even p (q * 2 ^ (-(52 - ilog2 p q)).toNat) : ℚ) = M at r1' r2' ⊢
    · rw [sub_le_iff_le_add, div_le_iff₀ hq']
      nlinarith
    · rw [← sub_le_iff_le_add, le_div_iff₀ hq']
      nlinarith
  · simp only [hs, if_true]
    refine ⟨_, _, rfl, ?_, ?_, hbound⟩
    all_goals
      have hN : (0 : ℚ) < ((2 ^ (52 - ilog2 p q).toNat : Nat) : ℚ) := by positivity
      have hE : (2 : ℚ) ^ (-(52 - ilog2 p q)) = 1 / ((2 ^ (52 - ilog2 p q).toNat : Nat) : ℚ) := by
        rw [zpow_neg, zpow_toNat_of_nonneg _ hs, one_div]
      rw [hE]
      obtain ⟨r1, r2⟩ := round_even_spec (p * 2 ^ (52 - ilog2 p q).toNat) q hq
      have r1' : (2 : ℚ) * ((round_even (p * 2 ^ (52 - ilog2 p q).toNat) q : ℚ) * (q : ℚ)) ≤
          2 * ((p : ℚ) * ((2 ^ (52 - ilog2 p q).toNat : Nat) : ℚ)) + (q : ℚ) := by
        exact_mod_cast r1
      have r2' : (2 : ℚ) * ((p : ℚ) * ((2 ^ (52 - ilog2 p q).toNat : Nat) : ℚ)) ≤
          2 * ((round_even (p * 2 ^ (52 - ilog2 p q).toNat) q : ℚ) * (q : ℚ)) + (q : ℚ) := by
        exact_mod_cast r2
      generalize ((2 ^ (52 - ilog2 p q).toNat : Nat) : ℚ) = N at r1' r2' hN ⊢
      generalize (round_even (p * 2 ^ (52 - ilog2 p q).toNat) q : ℚ) = M at r1' r2' ⊢
    · rw [sub_le_iff_le_add, div_le_iff₀ hq']
      have e : (M * (1 / N) + 1 / N / 2) * (q : ℚ) = (2 * (M * q) + q) / (2 * N) := by
        field_simp; ring
      rw [e, le_div_iff₀ (by positivity)]
      linarith
    · rw [← sub_le_iff_le_add, le_div_iff₀ hq']
      have e : (M * (1 / N) - 1 / N / 2) * (q : ℚ) = (2 * (M * q) - q) / (2 * N) := by
        field_simp; ring
      rw [e, div_le_iff₀ (by positivity)]
      linarith

theorem natAbs_cast_of_pos (n : Int) (hn : 0 < n) : ((n.natAbs : Nat) : ℚ) = (n : ℚ) := by
  have h1 : ((n.natAbs : Nat) : Int) = n := Int.natAbs_of_nonneg (le_of_lt hn)
  have h2 : (((n.natAbs : Nat) : Int) : ℚ) = (n : ℚ) := by rw [h1]
  rw [← h2]
  exact (Int.cast_natCast n.natAbs).symm

theorem double_div_pos (h ih : Int) (hh : 0 < h) (hi : 0 < ih) :
    ∃ (M : Nat) (e : Int),
      double.div (double.ofInt h) (double.ofInt ih) = double.finite (M : Int) e ∧
      (h : ℚ) / (ih : ℚ) - (2 : ℚ) ^ e / 2 ≤ (M : ℚ) * (2 : ℚ) ^ e ∧
      (M : ℚ) * (2 : ℚ) ^ e ≤ (h : ℚ) / (ih : ℚ) + (2 : ℚ) ^ e / 2 ∧
      (2 : ℚ) ^ e ≤ (h : ℚ) / (ih : ℚ) * (2 : ℚ) ^ (-52 : Int) := by
  obtain ⟨M, e, hr, h1, h2, h3⟩ :=
    round_binary64_spec h.natAbs ih.natAbs (Int.natAbs_pos.2 (ne_of_gt hh))
      (Int.natAbs_pos.2 (ne_of_gt hi))
  rw [natAbs_cast_of_pos h hh, natAbs_cast_of_pos ih hi] at h1 h2 h3
  refine ⟨M, e, ?_, h1, h2, h3⟩
  have hh0 : h ≠ 0 := ne_of_gt hh
  have hi0 : ih ≠ 0 := ne_of_gt hi
  have hs : sign_differs h ih = false := by
    unfold sign_differs
    have a : ¬ h < 0 := by omega
    have b : ¬ ih < 0 := by omega
    simp [a, b]
  simp [double.div, double.ofInt, hh0, hi0, hr, hs, with_sign]

theorem double_mul_pos (M : Nat) (e iw : Int) (hM : 0 < M) (hw : 0 < iw) :
    ∃ (M2 : Nat) (e2 : Int),
      double.mul (double.finite (M : Int) e) (double.ofInt iw) = double.finite (M2 : Int) (e2 + e) ∧
      (M : ℚ) * (iw : ℚ) - (2 : ℚ) ^ e2 / 2 ≤ (M2 : ℚ) * (2 : ℚ) ^ e2 ∧
      (M2 : ℚ) * (2 : ℚ) ^ e2 ≤ (M : ℚ) * (iw : ℚ) + (2 : ℚ) ^ e2 / 2 ∧
      (2 : ℚ) ^ e2 ≤ (M : ℚ) * (iw : ℚ) * (2 : ℚ) ^ (-52 : Int) := by
  have hpos : 0 < (M : Int) * iw := Int.mul_pos (by exact_mod_cast hM) hw
  obtain ⟨M2, e2, hr, h1, h2, h3⟩ :=
    round_binary64_spec ((M : Int) * iw).natAbs 1 (Int.natAbs_pos.2 (ne_of_gt hpos)) (by decide)
  rw [natAbs_cast_of_pos _ hpos] at h1 h2 h3
  simp only [Nat.cast_one, div_one, Int.cast_mul, Int.cast_natCast] at h1 h2 h3
  refine ⟨M2, e2, ?_, h1, h2, h3⟩
  have hs : sign_differs (M : Int) iw = false := by
    unfold sign_differs
    have a : ¬ (M : Int) < 0 := by omega
    have b : ¬ iw < 0 := by omega
    simp [a, b]
  have hne : (M : Int) * iw ≠ 0 := ne_of_gt hpos
  simp only [double.mul, double.ofInt, hne, if_false, hr, hs, with_sign, Bool.false_eq_true,
    add_zero]

theorem double_toInt_floor (M : Nat) (e : Int) :
    ∃ t : Int, (if 0 ≤ e then (M : Int) * 2 ^ e.toNat else Int.tdiv (M : Int) (2 ^ (-e).toNat)) = t ∧
      0 ≤ t ∧ (t : ℚ) ≤ (M : ℚ) * (2 : ℚ) ^ e ∧ (M : ℚ) * (2 : ℚ) ^ e < (t : ℚ) + 1 := by
  refine ⟨_, rfl, ?_, ?_, ?_⟩
  · split
    · positivity
    · exact Int.tdiv_nonneg (by positivity) (by positivity)
  · split
    · rename_i he
      rw [zpow_toNat_of_nonneg e he]
      push_cast
      exact le_refl _
    · rename_i he
      rw [zpow_toNat_of_neg e (by omega)]
      rw [Int.tdiv_eq_ediv (by positivity) (by positivity)]
      have hN : (0 : ℚ) < ((2 ^ (-e).toNat : Nat) : ℚ) := by positivity
      rw [mul_one_div, le_div_iff₀ hN]
      have := Int.ediv_mul_le (M : Int) (b := (2 : Int) ^ (-e).toNat) (by positivity)
      exact_mod_cast this
  · split
    · rename_i he
      rw [zpow_toNat_of_nonneg e he]
      push_cast
      linarith
    · rename_i he
      rw [zpow_toNat_of_neg e (by omega)]
      rw [Int.tdiv_eq_ediv (by positivity) (by positivity)]
      have hN : (0 : ℚ) < ((2 ^ (-e).toNat : Nat) : ℚ) := by positivity
      rw [mul_one_div, div_lt_iff₀ hN]
      have := Int.lt_ediv_add_one_mul_self (M : Int) (b := (2 : Int) ^ (-e).toNat) (by positivity)
      exact_mod_cast this

theorem floor_bounds (a b : Int) (hb : 0 < b) :
    ((a / b : Int) : ℚ) ≤ (a : ℚ) / (b : ℚ) ∧ (a : ℚ) / (b : ℚ) < ((a / b : Int) : ℚ) + 1 := by
  have hb' : (0 : ℚ) < (b : ℚ) := by exact_mod_cast hb
  constructor
  · rw [le_div_iff₀ hb']
    have := Int.ediv_mul_le a (ne_of_gt hb)
    exact_mod_cast this
  · rw [div_lt_iff₀ hb']
    have := Int.lt_ediv_add_one_mul_self a hb
    exact_mod_cast this

theorem resize_width_zero_left (ih iw : Int) : resize_width 0 ih iw = some 0 ∨
    (ih = 0 ∧ resize_width 0 ih iw = none) := by
  by_cases hi : ih = 0
  · right
    subst hi
    exact ⟨rfl, by simp [resize_width, double.div, double.ofInt, double.mul, double.toInt]⟩
  · left
    simp [resize_width, double.div, double.ofInt, double.mul, double.toInt, hi, INT_MIN, INT_MAX]

theorem resize_width_near (h ih iw : Int) (hh : 0 ≤ h) (hi : 0 < ih) (hw : 0 ≤ iw)
    (hF : h * iw / ih < INT_MAX) :
    ∃ W, resize_width h ih iw = some W ∧ h * iw / ih - 1 ≤ W ∧ W ≤ h * iw / ih + 1 := by
  rcases eq_or_lt_of_le hh with h0 | hpos
  · subst h0
    rcases resize_width_zero_left ih iw with hz | ⟨hz, _⟩
    · exact ⟨0, hz, by simp, by simp⟩
    · omega
  obtain ⟨M, e, hdiv, r1, r2, r3⟩ := double_div_pos h ih hpos hi
  rcases eq_or_lt_of_le hw with w0 | wpos
  · subst w0
    refine ⟨0, ?_, by simp, by simp⟩
    rw [resize_width, hdiv]
    simp [double.ofInt, double.mul, double.toInt, INT_MIN, INT_MAX]
  have hx : (0 : ℚ) < (h : ℚ) / (ih : ℚ) :=
    div_pos (by exact_mod_cast hpos) (by exact_mod_cast hi)
  have hiw : (0 : ℚ) < (iw : ℚ) := by exact_mod_cast wpos
  have hδ : (2 : ℚ) ^ (-52 : Int) = 1 / 4503599627370496 := by norm_num
  have hE : (0 : ℚ) < (2 : ℚ) ^ e := zpow_pos (by norm_num) e
  rw [hδ] at r3
  have hMpos : 0 < M := by
    rcases Nat.eq_zero_or_pos M with hM0 | hM0
    · subst hM0
      simp only [Nat.cast_zero, zero_mul] at r1
      linarith
    · exact hM0
  obtain ⟨M2, e2, hmul, u1, u2, u3⟩ := double_mul_pos M e iw hMpos wpos
  rw [hδ] at u3
  obtain ⟨t, ht, ht0, t1, t2⟩ := double_toInt_floor M2 (e2 + e)
  obtain ⟨f1, f2⟩ := floor_bounds (h * iw) ih hi
  have hFq : ((h * iw / ih : Int) : ℚ) + 1 ≤ 2147483647 := by
    have : h * iw / ih + 1 ≤ 2147483647 := by unfold INT_MAX at hF; omega
    exact_mod_cast this
  -- the exact quotient and the computed value
  have hy : ((h * iw : Int) : ℚ) / (ih : ℚ) = (h : ℚ) / (ih : ℚ) * (iw : ℚ) := by
    push_cast; ring
  rw [hy] at f1 f2
  have hv : (M2 : ℚ) * (2 : ℚ) ^ (e2 + e) = (M2 : ℚ) * (2 : ℚ) ^ e2 * (2 : ℚ) ^ e := by
    rw [zpow_add₀ (by norm_num : (2 : ℚ) ≠ 0)]; ring
  rw [hv] at t1 t2
  generalize (h : ℚ) / (ih : ℚ) = x at *
  generalize (M2 : ℚ) * (2 : ℚ) ^ e2 = u at *
  generalize (2 : ℚ) ^ e2 = d2 at *
  generalize (2 : ℚ) ^ e = d at *
  generalize (M : ℚ) = m at *
  generalize (iw : ℚ) = w at *
  -- r = m * d is within x * 2^-53 of x; u within (m * w) * 2^-53 of m * w
  have hr_hi : m * d ≤ x * (1 + 1 / 9007199254740992) := by linarith
  have hr_lo : x * (1 - 1 / 9007199254740992) ≤ m * d := by linarith
  have hu_hi : u ≤ m * w * (1 + 1 / 9007199254740992) := by linarith
  have hu_lo : m * w * (1 - 1 / 9007199254740992) ≤ u := by linarith
  have hv_hi : u * d ≤ x * w * (1 + 1 / 9007199254740992) * (1 + 1 / 9007199254740992) := by
    calc u * d ≤ m * w * (1 + 1 / 9007199254740992) * d :=
          mul_le_mul_of_nonneg_right hu_hi (le_of_lt hE)
      _ = m * d * (w * (1 + 1 / 9007199254740992)) := by ring
      _ ≤ x * (1 + 1 / 9007199254740992) * (w * (1 + 1 / 9007199254740992)) :=
          mul_le_mul_of_nonneg_right hr_hi (by positivity)
      _ = x * w * (1 + 1 / 9007199254740992) * (1 + 1 / 9007199254740992) := by ring
  have hv_lo : x * w * (1 - 1 / 9007199254740992) * (1 - 1 / 9007199254740992) ≤ u * d := by
    calc x * w * (1 - 1 / 9007199254740992) * (1 - 1 / 9007199254740992)
        = x * (1 - 1 / 9007199254740992) * (w * (1 - 1 / 9007199254740992)) := by ring
      _ ≤ m * d * (w * (1 - 1 / 9007199254740992)) :=
          mul_le_mul_of_nonneg_right hr_lo (by norm_num; positivity)
      _ = m * w * (1 - 1 / 9007199254740992) * d := by ring
      _ ≤ u * d := mul_le_mul_of_nonneg_right hu_lo (le_of_lt hE)
  have hxw : 0 < x * w := mul_pos hx hiw
  have hlow : ((h * iw / ih : Int) : ℚ) - 2 < (t : ℚ) := by linarith
  have hupp : (t : ℚ) < ((h * iw / ih : Int) : ℚ) + 2 := by linarith
  have hlow' : h * iw / ih - 2 < t := by exact_mod_cast hlow
  have hupp' : t < h * iw / ih + 2 := by exact_mod_cast hupp
  refine ⟨t, ?_, by omega, by omega⟩
  have hrange : INT_MIN ≤ t ∧ t ≤ INT_MAX := by
    unfold INT_MIN INT_MAX at *
    constructor <;> omega
  simp only [resize_width, hdiv, hmul, double.toInt, add_zero]
  rw [ht]
  simp [hrange]

theorem exact_of_spec (M : Nat) (E : Int) (z : Int)
    (lo : (z : ℚ) - (2 : ℚ) ^ E / 2 ≤ (M : ℚ) * (2 : ℚ) ^ E)
    (hi : (M : ℚ) * (2 : ℚ) ^ E ≤ (z : ℚ) + (2 : ℚ) ^ E / 2) (hE : E ≤ 0) :
    (M : ℚ) * (2 : ℚ) ^ E = (z : ℚ) := by
  have hN : (0 : ℚ) < ((2 ^ (-E).toNat : Nat) : ℚ) := by positivity
  have h2E : (2 : ℚ) ^ E = 1 / ((2 ^ (-E).toNat : Nat) : ℚ) := by
    have : (2 : ℚ) ^ E = ((2 : ℚ) ^ (-E))⁻¹ := by rw [zpow_neg, inv_inv]
    rw [this, zpow_toNat_of_nonneg (-E) (by omega), one_div]
  rw [h2E] at lo hi ⊢
  have lo' : 2 * (z : ℚ) * ((2 ^ (-E).toNat : Nat) : ℚ) - 1 ≤ 2 * (M : ℚ) := by
    have := mul_le_mul_of_nonneg_right lo (le_of_lt hN)
    have e1 : ((z : ℚ) - 1 / ((2 ^ (-E).toNat : Nat) : ℚ) / 2) * ((2 ^ (-E).toNat : Nat) : ℚ) =
        (z : ℚ) * ((2 ^ (-E).toNat : Nat) : ℚ) - 1 / 2 := by field_simp; ring
    have e2 : (M : ℚ) * (1 / ((2 ^ (-E).toNat : Nat) : ℚ)) * ((2 ^ (-E).toNat : Nat) : ℚ) =
        (M : ℚ) := by field_simp
    rw [e1, e2] at this
    linarith
  have hi' : 2 * (M : ℚ) ≤ 2 * (z : ℚ) * ((2 ^ (-E).toNat : Nat) : ℚ) + 1 := by
    have := mul_le_mul_of_nonneg_right hi (le_of_lt hN)
    have e1 : ((z : ℚ) + 1 / ((2 ^ (-E).toNat : Nat) : ℚ) / 2) * ((2 ^ (-E).toNat : Nat) : ℚ) =
        (z : ℚ) * ((2 ^ (-E).toNat : Nat) : ℚ) + 1 / 2 := by field_simp; ring
    have e2 : (M : ℚ) * (1 / ((2 ^ (-E).toNat : Nat) : ℚ)) * ((2 ^ (-E).toNat : Nat) : ℚ) =
        (M : ℚ) := by field_simp
    rw [e1, e2] at this
    linarith
  have lo'' : 2 * z * ((2 ^ (-E).toNat : Nat) : Int) - 1 ≤ 2 * (M : Int) := by exact_mod_cast lo'
  have hi'' : 2 * (M : Int) ≤ 2 * z * ((2 ^ (-E).toNat : Nat) : Int) + 1 := by exact_mod_cast hi'
  have heq : (M : Int) = z * ((2 ^ (-E).toNat : Nat) : Int) := by
    have e : 2 * z * ((2 ^ (-E).toNat : Nat) : Int) = 2 * (z * ((2 ^ (-E).toNat : Nat) : Int)) := by
      ring
    rw [e] at lo'' hi''
    omega
  have heq' : (M : ℚ) = (z : ℚ) * ((2 ^ (-E).toNat : Nat) : ℚ) := by exact_mod_cast heq
  rw [heq']
  field_simp

theorem exponent_nonpos (E : Int) (y : ℚ) (hy : y < 4503599627370496)
    (h : (2 : ℚ) ^ E ≤ y * (1 / 4503599627370496)) : E ≤ 0 := by
  by_contra hc
  have h1 : (1 : Int) ≤ E := by omega
  have h2 : (2 : ℚ) ^ (1 : Int) ≤ (2 : ℚ) ^ E := zpow_le_zpow_right₀ (by norm_num) h1
  rw [zpow_one] at h2
  linarith

theorem resize_width_exact (h ih iw : Int) (hh : 0 ≤ h) (hi : 0 < ih) (hw : 0 ≤ iw)
    (hdvd : ih ∣ h) (hF : h * iw / ih < INT_MAX) :
    resize_width h ih iw = some (h * iw / ih) := by
  rcases eq_or_lt_of_le hh with h0 | hpos
  · subst h0
    rcases resize_width_zero_left ih iw with hz | ⟨hz, _⟩
    · rw [hz]; simp
    · omega
  obtain ⟨M, e, hdiv, r1, r2, r3⟩ := double_div_pos h ih hpos hi
  rcases eq_or_lt_of_le hw with w0 | wpos
  · subst w0
    rw [resize_width, hdiv]
    simp [double.ofInt, double.mul, double.toInt, INT_MIN, INT_MAX]
  obtain ⟨k, hk⟩ := hdvd
  have hih : (ih : ℚ) ≠ 0 := by exact_mod_cast (ne_of_gt hi)
  have hkpos : 0 < k := by
    by_contra hc
    have : k ≤ 0 := by omega
    have : ih * k ≤ 0 := Int.mul_nonpos_of_nonneg_of_nonpos (le_of_lt hi) this
    omega
  have hx : (h : ℚ) / (ih : ℚ) = (k : ℚ) := by
    rw [hk]; push_cast; field_simp
  have hFk : h * iw / ih = k * iw := by
    rw [hk, Int.mul_assoc, Int.mul_ediv_cancel_left _ (ne_of_gt hi)]
  rw [hFk] at hF ⊢
  have hkw : k * iw < 2147483647 := by unfold INT_MAX at hF; exact hF
  have hk_lt : k < 2147483647 := by
    have : k * 1 ≤ k * iw := Int.mul_le_mul_of_nonneg_left (by omega) (le_of_lt hkpos)
    omega
  have hδ : (2 : ℚ) ^ (-52 : Int) = 1 / 4503599627370496 := by norm_num
  rw [hx] at r1 r2 r3
  rw [hδ] at r3
  have hkq : (k : ℚ) < 2147483647 := by exact_mod_cast hk_lt
  have he : e ≤ 0 := exponent_nonpos e (k : ℚ) (by linarith) r3
  have hr : (M : ℚ) * (2 : ℚ) ^ e = (k : ℚ) := exact_of_spec M e k r1 r2 he
  have hE : (0 : ℚ) < (2 : ℚ) ^ e := zpow_pos (by norm_num) e
  have hkq0 : (0 : ℚ) < (k : ℚ) := by exact_mod_cast hkpos
  have hMpos : 0 < M := by
    rcases Nat.eq_zero_or_pos M with hM0 | hM0
    · subst hM0
      simp only [Nat.cast_zero, zero_mul] at hr
      linarith
    · exact hM0
  obtain ⟨M2, e2, hmul, u1, u2, u3⟩ := double_mul_pos M e iw hMpos wpos
  rw [hδ] at u3
  have hiw : (0 : ℚ) < (iw : ℚ) := by exact_mod_cast wpos
  have hkwq : ((k * iw : Int) : ℚ) < 2147483647 := by exact_mod_cast hkw
  have hP : (M : ℚ) * (iw : ℚ) * (2 : ℚ) ^ e = ((k * iw : Int) : ℚ) := by
    push_cast
    calc (M : ℚ) * (iw : ℚ) * (2 : ℚ) ^ e = (M : ℚ) * (2 : ℚ) ^ e * (iw : ℚ) := by ring
      _ = (k : ℚ) * (iw : ℚ) := by rw [hr]
  have hsplit : (2 : ℚ) ^ (e2 + e) = (2 : ℚ) ^ e2 * (2 : ℚ) ^ e :=
    zpow_add₀ (by norm_num : (2 : ℚ) ≠ 0) e2 e
  have v3 : (2 : ℚ) ^ (e2 + e) ≤ ((k * iw : Int) : ℚ) * (1 / 4503599627370496) := by
    rw [hsplit, ← hP]
    have := mul_le_mul_of_nonneg_right u3 (le_of_lt hE)
    linarith
  have v1 : ((k * iw : Int) : ℚ) - (2 : ℚ) ^ (e2 + e) / 2 ≤ (M2 : ℚ) * (2 : ℚ) ^ (e2 + e) := by
    rw [hsplit, ← hP]
    have := mul_le_mul_of_nonneg_right u1 (le_of_lt hE)
    linarith
  have v2 : (M2 : ℚ) * (2 : ℚ) ^ (e2 + e) ≤ ((k * iw : Int) : ℚ) + (2 : ℚ) ^ (e2 + e) / 2 := by
    rw [hsplit, ← hP]
    have := mul_le_mul_of_nonneg_right u2 (le_of_lt hE)
    linarith
  have hE2 : e2 + e ≤ 0 := exponent_nonpos (e2 + e) _ (by linarith) v3
  have hv : (M2 : ℚ) * (2 : ℚ) ^ (e2 + e) = ((k * iw : Int) : ℚ) :=
    exact_of_spec M2 (e2 + e) (k * iw) v1 v2 hE2
  obtain ⟨t, ht, ht0, t1, t2⟩ := double_toInt_floor M2 (e2 + e)
  rw [hv] at t1 t2
  have ht1 : t ≤ k * iw := by exact_mod_cast t1
  have ht2 : k * iw < t + 1 := by exact_mod_cast t2
  have hteq : t = k * iw := by omega
  have hrange : INT_MIN ≤ t ∧ t ≤ INT_MAX := by
    unfold INT_MIN INT_MAX at *
    constructor <;> omega
  simp only [resize_width, hdiv, hmul, double.toInt, add_zero]
  rw [ht]
  rw [hteq] at hrange ⊢
  simp [hrange]

theorem imagebox_geometry_resize (L : lua_State) (widget : widget_t) (d : imagebox_data_t)
    (image : Nat) (iwidth iheight height width : Int) (hd : widget.data = some d)
    (hi : d.image = some image) (hr : d.resize = true)
    (hw : image_getwidth L image = some iwidth) (hh : image_getheight L image = some iheight) :
    imagebox_geometry L widget height width =
      match resize_width height iheight iwidth with
      | some gwidth =>
        if gwidth > width then some { x := 0, y := 0, width := 0, height := 0 }
        else some { x := 0, y := 0, width := gwidth, height := height }
      | none => none := by
  simp only [imagebox_geometry, hd, hi, hr, hw, hh, resize_width, if_true]

/-- C4 as stated fails: an `11 x 11` image in an imagebox with resize on, 15 pixels of height
and 100 of width available.  `floor (15 * 11 / 11) = 15 <= 100`, so the claim gives width 15
and height 15; the code computes `15.0 / 11 * 11 = 14.999999999999998` in double precision and
returns width 14. -/
theorem C4_counterexample :
    imagebox_geometry ⟨[], [], [⟨some "image", [], body_t.image 11 11⟩], []⟩
        (sample_widget ⟨some 0, color_zero, alignment_t.AlignTop, true⟩) 15 100 =
      some { x := 0, y := 0, width := 14, height := 15 } ∧
    geometry_resize_spec 11 11 15 100 = { x := 0, y := 0, width := 15, height := 15 } ∧
    imagebox_geometry ⟨[], [], [⟨some "image", [], body_t.image 11 11⟩], []⟩
        (sample_widget ⟨some 0, color_zero, alignment_t.AlignTop, true⟩) 15 100 ≠
      some (geometry_resize_spec 11 11 15 100) := by
  refine ⟨by decide, by decide, by decide⟩

/-- C4 as amended (optional resizing in the geometry request).  For an imagebox with resize on
and an image of width `iwidth >= 0` and height `iheight > 0`, and an available height `>= 0`
with `floor (height * iwidth / iheight) < INT_MAX`: the double product
`((double) height / iheight) * iwidth` converts to an `int` `W`, which differs from
`floor (height * iwidth / iheight)` by at most 1 and equals it when `iheight` divides
`height`; `imagebox_geometry` returns `x = y = 0`, `width = W` and `height` = the available
height when `W <= width`, and `width = height = 0` when `W` is larger. -/
theorem C4_geometry_with_resize (L : lua_State) (widget : widget_t) (d : imagebox_data_t)
    (image : Nat) (iwidth iheight height width : Int) (hd : widget.data = some d)
    (hi : d.image = some image) (hr : d.resize = true)
    (hw : image_getwidth L image = some iwidth) (hh : image_getheight L image = some iheight)
    (h0 : 0 ≤ iwidth) (h1 : 0 < iheight) (h2 : 0 ≤ height)
    (hF : height * iwidth / iheight < INT_MAX) :
    ∃ W, resize_width height iheight iwidth = some W ∧
      height * iwidth / iheight - 1 ≤ W ∧ W ≤ height * iwidth / iheight + 1 ∧
      (iheight ∣ height → W = height * iwidth / iheight) ∧
      (W ≤ width → imagebox_geometry L widget height width =
        some { x := 0, y := 0, width := W, height := height }) ∧
      (width < W → imagebox_geometry L widget height width =
        some { x := 0, y := 0, width := 0, height := 0 }) := by
  obtain ⟨W, hW, hlo, hup⟩ := resize_width_near height iheight iwidth h2 h1 h0 hF
  have hg := imagebox_geometry_resize L widget d image iwidth iheight height width hd hi hr hw hh
  rw [hW] at hg
  refine ⟨W, hW, hlo, hup, ?_, ?_, ?_⟩
  · intro hdvd
    have := resize_width_exact height iheight iwidth h2 h1 h0 hdvd hF
    rw [hW] at this
    exact Option.some.inj this
  · intro hle
    rw [hg]
    simp [not_lt.2 hle]
  · intro hlt
    rw [hg]
    simp [hlt]

/-- C4 as amended, at the input of the counterexample: the computed width is 14, one less than
`floor (15 * 11 / 11)`. -/
theorem C4_geometry_with_resize_witness :
    ∃ W, resize_width 15 11 11 = some W ∧ 15 * 11 / 11 - 1 ≤ W ∧ W ≤ 15 * 11 / 11 + 1 ∧
      (W ≤ 100 → imagebox_geometry ⟨[], [], [⟨some "image", [], body_t.image 11 11⟩], []⟩
        (sample_widget ⟨some 0, color_zero, alignment_t.AlignTop, true⟩) 15 100 =
        some { x := 0, y := 0, width := W, height := 15 }) := by
  obtain ⟨W, h1, h2, h3, _, h5, _⟩ :=
    C4_geometry_with_resize ⟨[], [], [⟨some "image", [], body_t.image 11 11⟩], []⟩
      (sample_widget ⟨some 0, color_zero, alignment_t.AlignTop, true⟩)
      ⟨some 0, color_zero, alignment_t.AlignTop, true⟩ 0 11 11 15 100 rfl rfl rfl
      (by decide) (by decide) (by decide) (by decide) (by decide) (by decide)
  exact ⟨W, h1, h2, h3, h5⟩

end Awesome
